import Mathlib

/-!
# Verification of the ever-node-tools validator console client

Shallow embedding of the command protocol engine and election-bid workflow of
`src/bin/console.rs` (the primary variant; `src/src/console.rs` agrees on every
property checked here).  Pure string/byte manipulation is translated directly;
the wall clock, the ADNL channel, the TL serializer, the cell codec and ed25519
verification are external collaborators and appear as explicit parameters.
Bytes are `Nat` values kept below 256 by construction of the decoders.
-/

namespace Console

instance {ε α : Type} [DecidableEq ε] [DecidableEq α] :
    DecidableEq (Except ε α) := fun a b =>
  match a, b with
  | Except.ok x, Except.ok y =>
    if h : x = y then isTrue (by rw [h])
    else isFalse (fun he => h (by injection he))
  | Except.error x, Except.error y =>
    if h : x = y then isTrue (by rw [h])
    else isFalse (fun he => h (by injection he))
  | Except.ok _, Except.error _ => isFalse (fun he => Except.noConfusion he)
  | Except.error _, Except.ok _ => isFalse (fun he => Except.noConfusion he)

/-- UTF-8 size in bytes of one scalar value (Rust `str::len` counts bytes). -/
def charSize (c : Char) : Nat :=
  if c.toNat < 128 then 1 else if c.toNat < 2048 then 2
  else if c.toNat < 65536 then 3 else 4

/-- UTF-8 byte length of a character list. -/
def byteLenChars (cs : List Char) : Nat := (cs.map charSize).sum

/-- UTF-8 byte length of a string, as Rust `str::len` reports it. -/
def byteLen (s : String) : Nat := byteLenChars s.toList

/-- `str::trim_matches('"')`: strip all leading and trailing quote characters. -/
def trimQuotes (s : String) : String :=
  ⟨((s.toList.dropWhile (fun c => c = '"')).reverse.dropWhile
      (fun c => c = '"')).reverse⟩

/-- `p` is a prefix of `s` (Rust `str::starts_with`). -/
def isPrefixChars : List Char → List Char → Bool
  | [], _ => true
  | _ :: _, [] => false
  | p :: ps, c :: cs => p = c && isPrefixChars ps cs

/-- Rust `str::starts_with` on strings. -/
def startsWithStr (s p : String) : Bool := isPrefixChars p.toList s.toList

/-- Decimal digit value of a character, if any. -/
def digVal (c : Char) : Option Nat :=
  if 48 ≤ c.toNat ∧ c.toNat ≤ 57 then some (c.toNat - 48) else none

/-- Hex digit value of a character (the `hex` crate accepts both cases). -/
def hexVal (c : Char) : Option Nat :=
  if 48 ≤ c.toNat ∧ c.toNat ≤ 57 then some (c.toNat - 48)
  else if 97 ≤ c.toNat ∧ c.toNat ≤ 102 then some (c.toNat - 87)
  else if 65 ≤ c.toNat ∧ c.toNat ≤ 70 then some (c.toNat - 55)
  else none

/-- `hex::decode` on a character list: pairs of hex digits, else failure. -/
def hexDecodeList : List Char → Option (List Nat)
  | [] => some []
  | c1 :: c2 :: rest =>
    match hexVal c1, hexVal c2 with
    | some h, some l => (hexDecodeList rest).map (fun bs => (h * 16 + l) :: bs)
    | _, _ => none
  | _ => none

/-- Upper-case hex digit character for a value below 16. -/
def hexDigitU (n : Nat) : Char :=
  if n < 10 then Char.ofNat (48 + n) else Char.ofNat (55 + n)

/-- Lower-case hex digit character for a value below 16. -/
def hexDigitL (n : Nat) : Char :=
  if n < 10 then Char.ofNat (48 + n) else Char.ofNat (87 + n)

/-- `hex::encode_upper` on a byte list. -/
def hexEncodeUpperList (bs : List Nat) : List Char :=
  bs.foldr (fun b acc => hexDigitU (b / 16) :: hexDigitU (b % 16) :: acc) []

/-- `hex::encode_upper` producing a string. -/
def hexEncodeUpper (bs : List Nat) : String := ⟨hexEncodeUpperList bs⟩

/-- `hex::encode` (lower case) producing a string. -/
def hexEncodeLower (bs : List Nat) : String :=
  ⟨bs.foldr (fun b acc => hexDigitL (b / 16) :: hexDigitL (b % 16) :: acc) []⟩

/-- Base64 value of an alphabet character (standard alphabet). -/
def b64Val (c : Char) : Option Nat :=
  if 65 ≤ c.toNat ∧ c.toNat ≤ 90 then some (c.toNat - 65)
  else if 97 ≤ c.toNat ∧ c.toNat ≤ 122 then some (c.toNat - 97 + 26)
  else if 48 ≤ c.toNat ∧ c.toNat ≤ 57 then some (c.toNat - 48 + 52)
  else if c.toNat = 43 then some 62
  else if c.toNat = 47 then some 63
  else none

/-- Standard-alphabet base64 character for a sextet below 64. -/
def b64Char (n : Nat) : Char :=
  if n < 26 then Char.ofNat (65 + n)
  else if n < 52 then Char.ofNat (97 + (n - 26))
  else if n < 62 then Char.ofNat (48 + (n - 52))
  else if n = 62 then '+' else '/'

/-- `base64::decode` (standard config): four-character groups, `=` padding only
at the very end, non-canonical padding bits rejected.  The crate additionally
accepts unpadded trailing groups of two or three characters; that case is
unreachable from `parse_int256`, whose base64 inputs always have 44 bytes. -/
def base64DecodeChars : List Char → Option (List Nat)
  | [] => some []
  | c1 :: c2 :: c3 :: c4 :: rest =>
    match b64Val c1, b64Val c2 with
    | some s1, some s2 =>
      if c3 = '=' then
        if c4 = '=' ∧ rest = [] ∧ s2 % 16 = 0 then some [s1 * 4 + s2 / 16]
        else none
      else
        match b64Val c3 with
        | some s3 =>
          if c4 = '=' then
            if rest = [] ∧ s3 % 4 = 0 then
              some [s1 * 4 + s2 / 16, (s2 % 16) * 16 + s3 / 4]
            else none
          else
            match b64Val c4 with
            | some s4 =>
              (base64DecodeChars rest).map
                (fun bs => (s1 * 4 + s2 / 16) :: ((s2 % 16) * 16 + s3 / 4) ::
                  ((s3 % 4) * 64 + s4) :: bs)
            | none => none
        | none => none
    | _, _ => none
  | _ => none

/-- `base64::decode` on a string. -/
def base64Decode (s : String) : Option (List Nat) := base64DecodeChars s.toList

/-- `base64::encode` on a byte list (standard alphabet, padded). -/
def base64EncodeChars : List Nat → List Char
  | [] => []
  | [a] => [b64Char (a / 4), b64Char ((a % 4) * 16), '=', '=']
  | [a, b] => [b64Char (a / 4), b64Char ((a % 4) * 16 + b / 16),
      b64Char ((b % 16) * 4), '=']
  | a :: b :: c :: rest =>
    b64Char (a / 4) :: b64Char ((a % 4) * 16 + b / 16) ::
      b64Char ((b % 16) * 4 + c / 64) :: b64Char (c % 64) ::
      base64EncodeChars rest

/-- `base64::encode` producing a string. -/
def base64Encode (bs : List Nat) : String := ⟨base64EncodeChars bs⟩

/-- Reversed decimal digit list of a natural number (least significant first). -/
def natToRevDigits (n : Nat) : List Char :=
  if h : n < 10 then [Char.ofNat (48 + n)]
  else Char.ofNat (48 + n % 10) :: natToRevDigits (n / 10)
  decreasing_by exact Nat.div_lt_self (Nat.lt_of_lt_of_le (by omega) (Nat.le_of_not_lt h)) (by omega)

/-- Decimal rendering of an integer, as `format!` produces it. -/
def intToDecString (i : Int) : String :=
  if i < 0 then ⟨'-' :: (natToRevDigits (-i).toNat).reverse⟩
  else ⟨(natToRevDigits i.toNat).reverse⟩

/-- Accumulating decimal parser over a digit list. -/
def parseDigitsAux : List Char → Nat → Option Nat
  | [], acc => some acc
  | c :: cs, acc =>
    match digVal c with
    | some d => parseDigitsAux cs (acc * 10 + d)
    | none => none

/-- Digit-run parser of `i32::from_str`: at least one digit, all characters
digits, the value within the `i32` range for the given sign. -/
def i32Core (cs : List Char) (neg : Bool) : Option Int :=
  match cs with
  | [] => none
  | _ :: _ =>
    match parseDigitsAux cs 0 with
    | none => none
    | some n =>
      if neg then if (n : Int) ≤ 2 ^ 31 then some (-(n : Int)) else none
      else if (n : Int) < 2 ^ 31 then some (n : Int) else none

/-- `i32::from_str`: optional sign, at least one digit, value within `i32`. -/
def i32FromStr (s : String) : Option Int :=
  match s.toList with
  | [] => none
  | c :: rest =>
    if c = '-' then i32Core rest true
    else if c = '+' then i32Core rest false
    else i32Core (c :: rest) false

/-- Big-endian byte rendering of `v` on `w` bytes (`v` is taken mod `2^(8w)`). -/
def beBytes : Nat → Nat → List Nat
  | 0, _ => []
  | w + 1, v => beBytes w (v / 256) ++ [v % 256]

/-- `i32::to_be_bytes` with the two's-complement wraparound made explicit. -/
def i32BeBytes (i : Int) : List Nat := beBytes 4 ((i % (2 ^ 32)).toNat)

/-- `u64` value of an `i32` cast with `as u64` (sign extension). -/
def i32AsU64 (i : Int) : Nat := (i % (2 ^ 64)).toNat

/-- One key/value entry of `engine.validator.Stats`. -/
structure OneStat where
  key : String
  value : String
  deriving DecidableEq

/-- One session entry of `engine.validator.SessionStats`. -/
structure SessionStat where
  session_id : String
  stats : List OneStat
  deriving DecidableEq

/-- `ton_node.blockIdExt` after `convert_block_id_ext_blk2api`; the string
parser `BlockIdExt::from_str` is an external collaborator. -/
structure BlockIdExts where
  workchain : Int
  shard : Int
  seqno : Int
  root_hash : List Nat
  file_hash : List Nat
  deriving DecidableEq

/-- The closed universe of boxed TL answers (`TLObject`) the client can
`downcast` to, plus the structured remote error and a constructor for any
other TL shape, so that shape-mismatch behaviour is total. -/
inductive TLObject where
  | success
  | keyHash (key_hash : List Nat)
  | publicKey (key : Option (List Nat))
  | signature (signature : List Nat)
  | stats (stats : List OneStat)
  | sessionStats (stats : List SessionStat)
  | fullAccountState (data : List Nat)
  | controlQueryError (code : Int) (message : String)
  | otherObject (tag : Nat)
  deriving DecidableEq

/-- The requests the command registry can build (`ton::rpc::...`). -/
inductive TLRequest where
  | generateKeyPair
  | exportPublicKey (key_hash : List Nat)
  | sign (key_hash : List Nat) (data : List Nat)
  | addValidatorPermanentKey (key_hash : List Nat) (election_date : Int) (ttl : Int)
  | addValidatorTempKey (permanent_key_hash : List Nat) (key_hash : List Nat) (ttl : Int)
  | addValidatorAdnlAddress (permanent_key_hash : List Nat) (key_hash : List Nat) (ttl : Int)
  | addAdnlId (key_hash : List Nat) (category : Int)
  | getBundle (block_id : BlockIdExts)
  | getFutureBundle (prev_block_ids : List BlockIdExts)
  | getStats
  | getSessionStats
  | sendMessage (body : List Nat)
  | getAccountState (account_address : String)
  deriving DecidableEq

/-- Structured rendering of the `error!`/`fail!` messages of `console.rs`.
Each constructor corresponds to one format string in the source. -/
inductive CError where
  | insufficientParameters
  | useMasterchainWallet
  | hexError
  | base64Error
  | wrongHash (value : String) (length : Nat)
  | intParseError (value : String)
  | sliceTryInto (length : Nat)
  | blockIdError (value : String)
  | mustGive (name : String) (err : CError)
  | commandNotSupported (name : String)
  | categoryRange
  | fileReadError (filename : String)
  | electTimeNotPositive
  | expireTimeNotGreater
  | maxFactorMissing
  | maxFactorRange
  | receivingAnswer (message : String)
  | wrongResponse (query : TLRequest) (answer : TLObject)
  | errorResponse (query : TLRequest) (code : Int) (message : String)
  | keyLenMismatch (length : Nat)
  | signatureCheckFailed
  | builderOverflow
  | indexNegative
  | zerostateReadError (path : String)
  | zerostateParseError (message : String)
  | mcStateExtraReadError (message : String)
  | mcStateExtraMissing
  | configParamReadError (index : Int) (message : String)
  | configParamMissing (index : Int)
  | configParamNoReference (index : Int)
  | configParamSerializeError (index : Int) (message : String)
  | fileWriteError (message : String)
  deriving DecidableEq

/-- `parse_any`: missing parameter or failed domain parse, both wrapped into
the "you must give ..." context; quotes are stripped before parsing. -/
def parseAny {α : Type} (param_opt : Option String) (name : String)
    (parse_value : String → Except CError α) : Except CError α :=
  (match param_opt with
   | none => Except.error CError.insufficientParameters
   | some value => parse_value (trimQuotes value)).mapError
    (fun err => CError.mustGive name err)

/-- `parse_data`: hex-decode a parameter. -/
def parseData (param_opt : Option String) (name : String) :
    Except CError (List Nat) :=
  parseAny param_opt (name ++ " in hex format") fun value =>
    match hexDecodeList value.toList with
    | some bs => Except.ok bs
    | none => Except.error CError.hexError

/-- `parse_int256`: dispatch on the byte length of the value —
44 bytes means base64, 64 bytes means hex, anything else is "wrong hash" —
then convert the decoded bytes into a fixed 32-byte value (`try_into`). -/
def parseInt256 (param_opt : Option String) (name : String) :
    Except CError (List Nat) :=
  parseAny param_opt (name ++ " in hex or base64 format") fun value =>
    if byteLen value = 44 then
      match base64DecodeChars value.toList with
      | some bs =>
        if bs.length = 32 then Except.ok bs
        else Except.error (CError.sliceTryInto bs.length)
      | none => Except.error CError.base64Error
    else if byteLen value = 64 then
      match hexDecodeList value.toList with
      | some bs =>
        if bs.length = 32 then Except.ok bs
        else Except.error (CError.sliceTryInto bs.length)
      | none => Except.error CError.hexError
    else Except.error (CError.wrongHash value (byteLen value))

/-- `parse_int`: `i32::from_str` on a (quote-trimmed) parameter. -/
def parseInt (param_opt : Option String) (name : String) : Except CError Int :=
  parseAny param_opt name fun value =>
    match i32FromStr value with
    | some i => Except.ok i
    | none => Except.error (CError.intParseError value)

/-- A referenced child cell as `console.rs` builds them: raw data bits only.
(`BuilderData` allows nested references; this client only ever attaches
leaf cells.) -/
structure LeafCell where
  data : List Nat
  bits : Nat
  deriving DecidableEq

/-- The root cell handed to `serialize_toc`: raw data bits plus the attached
referenced sub-cells. -/
structure RootCell where
  data : List Nat
  bits : Nat
  refs : List LeafCell
  deriving DecidableEq

/-- `BuilderData::with_raw(data, bits)`: fails when the bit length exceeds the
1023-bit cell capacity. -/
def withRaw (data : List Nat) (bits : Nat) : Except CError RootCell :=
  if bits ≤ 1023 then Except.ok ⟨data, bits, []⟩
  else Except.error CError.builderOverflow

/-- `BuilderData::append_reference`: attach a built cell as a reference. -/
def appendReference (root : RootCell) (child : RootCell) : RootCell :=
  ⟨root.data, root.bits, root.refs ++ [⟨child.data, child.bits⟩]⟩

/-- External collaborators of the console client, injected explicitly:
the TL serializer, the cell codec's `serialize_toc`, `BlockIdExt::from_str`,
the file system read used by `sendmessage`, ed25519 verification, and the
wall clock `now()` (an `i32` count of seconds). -/
structure Externals where
  ser : TLObject → List Nat
  serializeToc : RootCell → List Nat
  blockIdFromStr : String → Except String BlockIdExts
  fsRead : String → Option (List Nat)
  verify : List Nat → List Nat → List Nat → Bool
  nowv : Int

/-- The names registered by the `commands!` macro, in registration order. -/
def registeredNames : List String :=
  ["newkey", "exportpub", "sign", "addpermkey", "addtempkey",
   "addvalidatoraddr", "addadnl", "bundle", "future_bundle", "getstats",
   "getconsensusstats", "sendmessage", "getaccountstate"]

/-- `command_send`: dispatch on the command name and build the request from
the parameter iterator; an unregistered name fails with "command not
supported". -/
def commandSend (ext : Externals) (name : String) (params : List String) :
    Except CError TLRequest :=
  match name with
  | "newkey" => Except.ok TLRequest.generateKeyPair
  | "exportpub" => do
    let key_hash ← parseInt256 params[0]? "key_hash"
    Except.ok (TLRequest.exportPublicKey key_hash)
  | "sign" => do
    let key_hash ← parseInt256 params[0]? "key_hash"
    let data ← parseData params[1]? "data"
    Except.ok (TLRequest.sign key_hash data)
  | "addpermkey" => do
    let key_hash ← parseInt256 params[0]? "key_hash"
    let election_date ← parseInt params[1]? "election_date"
    let expire_at ← parseInt params[2]? "expire_at"
    Except.ok (TLRequest.addValidatorPermanentKey key_hash election_date
      (expire_at - election_date))
  | "addtempkey" => do
    let permanent_key_hash ← parseInt256 params[0]? "permanent_key_hash"
    let key_hash ← parseInt256 params[1]? "key_hash"
    let expire_at ← parseInt params[2]? "expire_at"
    Except.ok (TLRequest.addValidatorTempKey permanent_key_hash key_hash
      (expire_at - ext.nowv))
  | "addvalidatoraddr" => do
    let permanent_key_hash ← parseInt256 params[0]? "permanent_key_hash"
    let key_hash ← parseInt256 params[1]? "key_hash"
    let expire_at ← parseInt params[2]? "expire_at"
    Except.ok (TLRequest.addValidatorAdnlAddress permanent_key_hash key_hash
      (expire_at - ext.nowv))
  | "addadnl" => do
    let key_hash ← parseInt256 params[0]? "key_hash"
    let category ← parseInt params[1]? "category"
    if category < 0 ∨ category > 15 then Except.error CError.categoryRange
    else Except.ok (TLRequest.addAdnlId key_hash category)
  | "bundle" => do
    let block_id ← parseAny params[0]? "block_id" fun value =>
      (ext.blockIdFromStr value).mapError CError.blockIdError
    Except.ok (TLRequest.getBundle block_id)
  | "future_bundle" => do
    let block_id ← parseAny params[0]? "block_id" fun value =>
      (ext.blockIdFromStr value).mapError CError.blockIdError
    match parseAny params[1]? "block_id" (fun value =>
        (ext.blockIdFromStr value).mapError CError.blockIdError) with
    | Except.ok block_id2 =>
      Except.ok (TLRequest.getFutureBundle [block_id, block_id2])
    | Except.error _ => Except.ok (TLRequest.getFutureBundle [block_id])
  | "getstats" => Except.ok TLRequest.getStats
  | "getconsensusstats" => Except.ok TLRequest.getSessionStats
  | "sendmessage" =>
    match params[0]? with
    | none => Except.error CError.insufficientParameters
    | some filename =>
      match ext.fsRead filename with
      | some body => Except.ok (TLRequest.sendMessage body)
      | none => Except.error (CError.fileReadError filename)
  | "getaccountstate" =>
    match params[0]? with
    | none => Except.error CError.insufficientParameters
    | some account => Except.ok (TLRequest.getAccountState account)
  | _ => Except.error (CError.commandNotSupported name)

/-- Result of a successful `receive`: the printed description, the raw bytes
handed back to the caller, and the file writes the handler performed
(`getaccountstate` writes the account data). -/
structure ReceiveOk where
  description : String
  bytes : List Nat
  writes : List (String × List Nat)
  deriving DecidableEq

/-- `description.pop()`: drop the last character. -/
def strPop (s : String) : String := ⟨s.toList.dropLast⟩

/-- The description `GetStats::receive` builds from the stats list. -/
def statsDescription (stats : List OneStat) : String :=
  strPop (stats.foldl
    (fun d st => d ++ "\n\t\"" ++ st.key ++ "\":\t" ++ st.value ++ ",")
    "\x7b") ++ "\n\x7d"

/-- The description `GetSessionStats::receive` builds. -/
def sessionStatsDescription (stats : List SessionStat) : String :=
  strPop (stats.foldl
    (fun d session =>
      strPop ((session.stats.foldl
        (fun d st => d ++ "\n\t\t\"" ++ st.key ++ "\":\t" ++ st.value ++ ",")
        (d ++ "\n\t\"" ++ session.session_id ++ "\":\t\x7b"))) ++ "\n\t\"\x7d,")
    "\x7b") ++ "\n\x7d"

/-- `command_receive`: dispatch on the command name and parse the answer.
Every handler first `downcast`s the boxed answer to its statically expected
shape; a mismatch returns the answer itself (`Err(answer)`), which the session
reports as "Wrong response".  An unregistered name also returns the answer
(the default arm), not a "command not supported" error.  The `.unwrap()` of a
missing output-file parameter in `getaccountstate` panics in the source and is
modelled by defaulting, unreachable for the claims below. -/
def commandReceive (ext : Externals) (name : String) (answer : TLObject)
    (params : List String) : Except TLObject ReceiveOk :=
  match name with
  | "newkey" =>
    match answer with
    | TLObject.keyHash key_hash =>
      Except.ok ⟨"received public key hash: " ++ hexEncodeLower key_hash ++
        " " ++ base64Encode key_hash, key_hash, []⟩
    | a => Except.error a
  | "exportpub" =>
    match answer with
    | TLObject.publicKey key =>
      let pub_key := key.getD []
      Except.ok ⟨"imported key: " ++ hexEncodeLower pub_key ++ " " ++
        base64Encode pub_key, pub_key, []⟩
    | a => Except.error a
  | "sign" =>
    match answer with
    | TLObject.signature signature =>
      Except.ok ⟨"got signature: " ++ hexEncodeLower signature ++ " " ++
        base64Encode signature, signature, []⟩
    | a => Except.error a
  | "getstats" =>
    let data := ext.ser answer
    match answer with
    | TLObject.stats stats => Except.ok ⟨statsDescription stats, data, []⟩
    | a => Except.error a
  | "getconsensusstats" =>
    let data := ext.ser answer
    match answer with
    | TLObject.sessionStats stats =>
      Except.ok ⟨sessionStatsDescription stats, data, []⟩
    | a => Except.error a
  | "getaccountstate" =>
    match answer with
    | TLObject.fullAccountState data =>
      let boc_name := (params[1]?).getD ""
      Except.ok ⟨"account state: " ++ hexEncodeLower data ++ " " ++
        base64Encode data, data, [(boc_name, data)]⟩
    | a => Except.error a
  | "addpermkey" | "addtempkey" | "addvalidatoraddr" | "addadnl"
  | "bundle" | "future_bundle" | "sendmessage" =>
    match answer with
    | TLObject.success => Except.ok ⟨"success", [], []⟩
    | a => Except.error a
  | _ => Except.error answer

/-- Does the answer's runtime shape match the statically expected response
type of a registered command? -/
def expectedShape (name : String) (answer : TLObject) : Bool :=
  match name with
  | "newkey" =>
    match answer with | TLObject.keyHash _ => true | _ => false
  | "exportpub" =>
    match answer with | TLObject.publicKey _ => true | _ => false
  | "sign" =>
    match answer with | TLObject.signature _ => true | _ => false
  | "getstats" =>
    match answer with | TLObject.stats _ => true | _ => false
  | "getconsensusstats" =>
    match answer with | TLObject.sessionStats _ => true | _ => false
  | "getaccountstate" =>
    match answer with | TLObject.fullAccountState _ => true | _ => false
  | "addpermkey" | "addtempkey" | "addvalidatoraddr" | "addadnl"
  | "bundle" | "future_bundle" | "sendmessage" =>
    match answer with | TLObject.success => true | _ => false
  | _ => false

/-- Observable effects of one client invocation: the control queries sent over
the channel and the files written, in order. -/
structure Trace where
  sent : List TLRequest
  written : List (String × List Nat)
  deriving DecidableEq

def Trace.empty : Trace := ⟨[], []⟩

def Trace.app (a b : Trace) : Trace := ⟨a.sent ++ b.sent, a.written ++ b.written⟩

/-- `ControlClient::process_command`: build the request, send it, check the
structured-error envelope first, then dispatch to the response parser.
`oracle n q` is the remote's answer to query `q` when `n` queries have been
sent before it (`Except.error` is a transport failure). -/
def processCommand (ext : Externals)
    (oracle : Nat → TLRequest → Except String TLObject) (n : Nat)
    (name : String) (params : List String) :
    Except CError (String × List Nat) × Trace :=
  match commandSend ext name params with
  | Except.error e => (Except.error e, Trace.empty)
  | Except.ok query =>
    match oracle n query with
    | Except.error err => (Except.error (CError.receivingAnswer err), ⟨[query], []⟩)
    | Except.ok answer =>
      match answer with
      | TLObject.controlQueryError code message =>
        (Except.error (CError.errorResponse query code message), ⟨[query], []⟩)
      | answer =>
        match commandReceive ext name answer params with
        | Except.error ans =>
          (Except.error (CError.wrongResponse query ans), ⟨[query], []⟩)
        | Except.ok out =>
          (Except.ok (out.description, out.bytes), ⟨[query], out.writes⟩)

/-- The console configuration file, `AdnlConsoleConfigJson`.  `max_factor` is
an `f32` in the source; it is modelled as a rational.  Every representable
`f32` in `[1, 100]` is a dyadic rational, and multiplying an `f32` by the
power of two `65536.0` is exact, so on all inputs the binary program can see
the rational model computes the very same values. -/
structure AdnlConsoleConfigJson where
  wallet_id : Option String
  max_factor : Option ℚ

/-- `(max_factor * 65536.0) as u32`: the multiplication is exact (power of
two), the `as u32` cast truncates toward zero. -/
def maxFactorFixed (mf : ℚ) : Nat := (mf * 65536).floor.toNat

/-- `q` is exactly representable as an IEEE-754 binary32 number: a significand
below `2 ^ 24` scaled by a power of two within the binary32 exponent range. -/
def isF32 (q : ℚ) : Prop :=
  ∃ (m : ℤ) (e : ℕ), m.natAbs < 2 ^ 24 ∧
    ((e ≤ 149 ∧ q * 2 ^ e = m) ∨ (e ≤ 104 ∧ q = m * 2 ^ e))

/-- Sequencing helper for the orchestrator: run one step, accumulate its
trace, feed its raw bytes to the continuation, abort on the first error. -/
def orStep (tr : Trace) (r : Except CError (String × List Nat) × Trace)
    (k : List Nat → Trace → Except CError (String × List Nat) × Trace) :
    Except CError (String × List Nat) × Trace :=
  match r with
  | (Except.error e, tr2) => (Except.error e, tr.app tr2)
  | (Except.ok out, tr2) => k out.2 (tr.app tr2)

/-- `ControlClient::process_election_bid` (`src/bin/console.rs`): validate the
wallet, the election window and `max_factor`, then run the eight dependent
remote calls, verify the returned signature locally over the exact signed
byte string, build the submission body with the signature as a referenced
sub-cell, and write the serialized tree to the output path. -/
def processElectionBid (ext : Externals)
    (oracle : Nat → TLRequest → Except String TLObject)
    (cfg : AdnlConsoleConfigJson) (params : List String) :
    Except CError (String × List Nat) × Trace :=
  match parseAny cfg.wallet_id "wallet_id" (fun value =>
      if ¬ startsWithStr value "-1:" then Except.error CError.useMasterchainWallet
      else match hexDecodeList (value.toList.drop 3) with
        | some w => Except.ok w
        | none => Except.error CError.hexError) with
  | Except.error e => (Except.error e, Trace.empty)
  | Except.ok wallet_id =>
  match parseInt params[0]? "elect_time" with
  | Except.error e => (Except.error e, Trace.empty)
  | Except.ok elect_time =>
  if elect_time ≤ 0 then (Except.error CError.electTimeNotPositive, Trace.empty) else
  let elect_time_str := intToDecString elect_time
  match parseInt params[1]? "expire_time" with
  | Except.error e => (Except.error e, Trace.empty)
  | Except.ok expire_time =>
  if expire_time ≤ elect_time then (Except.error CError.expireTimeNotGreater, Trace.empty) else
  let expire_time_str := intToDecString expire_time
  match cfg.max_factor with
  | none => (Except.error CError.maxFactorMissing, Trace.empty)
  | some mf =>
  if mf < 1 ∨ mf > 100 then (Except.error CError.maxFactorRange, Trace.empty) else
  let max_factor := maxFactorFixed mf
  orStep Trace.empty (processCommand ext oracle 0 "newkey" []) fun perm tr =>
  let perm_str := hexEncodeUpper perm
  orStep tr (processCommand ext oracle tr.sent.length "exportpub" [perm_str]) fun pub_key tr =>
  orStep tr (processCommand ext oracle tr.sent.length "addpermkey"
      [perm_str, elect_time_str, expire_time_str]) fun _ tr =>
  orStep tr (processCommand ext oracle tr.sent.length "addtempkey"
      [perm_str, perm_str, expire_time_str]) fun _ tr =>
  orStep tr (processCommand ext oracle tr.sent.length "newkey" []) fun adnl tr =>
  let adnl_str := hexEncodeUpper adnl
  orStep tr (processCommand ext oracle tr.sent.length "addadnl" [adnl_str, "0"]) fun _ tr =>
  orStep tr (processCommand ext oracle tr.sent.length "addvalidatoraddr"
      [perm_str, adnl_str, elect_time_str]) fun _ tr =>
  let data := beBytes 4 0x654C5074 ++ i32BeBytes elect_time ++
    beBytes 4 max_factor ++ wallet_id ++ adnl
  let data_str := hexEncodeUpper data
  orStep tr (processCommand ext oracle tr.sent.length "sign" [perm_str, data_str]) fun signature tr =>
  if pub_key.length = 32 then
    if ext.verify pub_key data signature then
      let query_id := i32AsU64 ext.nowv
      let data2 := beBytes 4 0x4E73744B ++ beBytes 8 query_id ++ pub_key ++
        i32BeBytes elect_time ++ beBytes 4 max_factor ++ adnl
      match withRaw data2 (data2.length * 8) with
      | Except.error e => (Except.error e, tr)
      | Except.ok body =>
      match withRaw signature (signature.length * 8) with
      | Except.error e => (Except.error e, tr)
      | Except.ok sig_cell =>
      let body := appendReference body sig_cell
      let out := ext.serializeToc body
      let path := (params[2]?).getD "validator-query.boc"
      (Except.ok ("Message body is " ++ base64Encode out ++
          " saved to path " ++ path, out),
       tr.app ⟨[], [(path, out)]⟩)
    else (Except.error CError.signatureCheckFailed, tr)
  else (Except.error (CError.keyLenMismatch pub_key.length), tr)

/-- The parsed zerostate snapshot, for the config-param extractor.  Only the
navigation the extractor performs is modelled: `read_custom()` yields the
optional `McStateExtra`, whose sparse `config_params` map yields, per index,
the optional entry's list of referenced sub-cells (cells of an abstract
type `C`, owned by the external cell codec). -/
structure McStateExtra (C : Type) where
  configParams : Int → Except String (Option (List C))

structure ZeroState (C : Type) where
  readCustom : Except String (Option (McStateExtra C))

/-- `ControlClient::process_config_param`: read and parse the zerostate JSON,
locate the config-param entry for the index, take its first referenced
sub-cell, serialize just that sub-cell and write it to the output path
(default `config-param.boc`).  `jsonParse`, `parseState` and `tocSer` are the
external JSON / state / cell codecs. -/
def processConfigParam {C J : Type} (jsonParse : String → Except String J)
    (parseState : J → Except String (ZeroState C))
    (tocSer : C → Except String (List Nat))
    (fsReadStr : String → Option String) (params : List String) :
    Except CError (String × List Nat) × List (String × List Nat) :=
  match parseInt params[0]? "index" with
  | Except.error e => (Except.error e, [])
  | Except.ok index =>
  if index < 0 then (Except.error CError.indexNegative, []) else
  match parseAny params[1]? "zerostate.json" (fun value => Except.ok value) with
  | Except.error e => (Except.error e, [])
  | Except.ok zpath =>
  let path := (params[2]?).getD "config-param.boc"
  match fsReadStr zpath with
  | none => (Except.error (CError.zerostateReadError zpath), [])
  | some contents =>
  match jsonParse contents with
  | Except.error message => (Except.error (CError.zerostateParseError message), [])
  | Except.ok j =>
  match parseState j with
  | Except.error message => (Except.error (CError.zerostateParseError message), [])
  | Except.ok zerostate =>
  match zerostate.readCustom with
  | Except.error message => (Except.error (CError.mcStateExtraReadError message), [])
  | Except.ok none => (Except.error CError.mcStateExtraMissing, [])
  | Except.ok (some extra) =>
  match extra.configParams index with
  | Except.error message => (Except.error (CError.configParamReadError index message), [])
  | Except.ok none => (Except.error (CError.configParamMissing index), [])
  | Except.ok (some entryRefs) =>
  match entryRefs.head? with
  | none => (Except.error (CError.configParamNoReference index), [])
  | some cell =>
  match tocSer cell with
  | Except.error message =>
    (Except.error (CError.configParamSerializeError index message), [])
  | Except.ok data =>
  (Except.ok ("Config param " ++ intToDecString index ++ " saved to path " ++
      path, data), [(path, data)])

/-! ## Facts about the encoders and parsers -/

lemma hexVal_hexDigitU : ∀ d : Nat, d < 16 → hexVal (hexDigitU d) = some d := by
  decide

lemma hexDigitU_toNat : ∀ d : Nat, d < 16 →
    (hexDigitU d).toNat < 128 ∧ (hexDigitU d).toNat ≠ 34 := by
  decide

lemma charSize_eq_one {c : Char} (h : c.toNat < 128) : charSize c = 1 := by
  simp [charSize, h]

lemma hexEncodeUpperList_cons (b : Nat) (bs : List Nat) :
    hexEncodeUpperList (b :: bs) =
      hexDigitU (b / 16) :: hexDigitU (b % 16) :: hexEncodeUpperList bs := rfl

lemma hexDecode_hexEncodeUpper (bs : List Nat) (hb : ∀ b ∈ bs, b < 256) :
    hexDecodeList (hexEncodeUpperList bs) = some bs := by
  induction bs with
  | nil => rfl
  | cons b bs ih =>
    have hb0 : b < 256 := hb b (List.mem_cons_self b bs)
    have h1 : b / 16 < 16 := by omega
    have h2 : b % 16 < 16 := by omega
    have hbb : b / 16 * 16 + b % 16 = b := by omega
    rw [hexEncodeUpperList_cons]
    unfold hexDecodeList
    rw [hexVal_hexDigitU _ h1, hexVal_hexDigitU _ h2,
      ih (fun x hx => hb x (List.mem_cons_of_mem b hx))]
    simp only [Option.map_some, hbb]
    rfl

lemma byteLenChars_hexEncodeUpper (bs : List Nat) (hb : ∀ b ∈ bs, b < 256) :
    byteLenChars (hexEncodeUpperList bs) = 2 * bs.length := by
  induction bs with
  | nil => rfl
  | cons b bs ih =>
    have hb0 : b < 256 := hb b (List.mem_cons_self b bs)
    rw [hexEncodeUpperList_cons]
    simp only [byteLenChars, List.map_cons, List.sum_cons] at *
    rw [charSize_eq_one (hexDigitU_toNat _ (by omega : b / 16 < 16)).1,
      charSize_eq_one (hexDigitU_toNat _ (by omega : b % 16 < 16)).1,
      ih (fun x hx => hb x (List.mem_cons_of_mem b hx))]
    simp only [List.length_cons]
    omega

lemma hexEncodeUpperList_noQuote (bs : List Nat) (hb : ∀ b ∈ bs, b < 256) :
    ∀ c ∈ hexEncodeUpperList bs, c ≠ '"' := by
  induction bs with
  | nil => intro c hc; cases hc
  | cons b bs ih =>
    have hb0 : b < 256 := hb b (List.mem_cons_self b bs)
    rw [hexEncodeUpperList_cons]
    intro c hc
    rcases hc with _ | ⟨_, hc⟩
    · intro he
      have := (hexDigitU_toNat (b / 16) (by omega)).2
      rw [he] at this
      exact this rfl
    · rcases hc with _ | ⟨_, hc⟩
      · intro he
        have := (hexDigitU_toNat (b % 16) (by omega)).2
        rw [he] at this
        exact this rfl
      · exact ih (fun x hx => hb x (List.mem_cons_of_mem b hx)) c hc

lemma dropWhile_quote_eq (l : List Char) (h : ∀ c ∈ l, c ≠ '"') :
    l.dropWhile (fun c => c = '"') = l := by
  cases l with
  | nil => rfl
  | cons c cs =>
    have hc : ¬ (c = '"') := h c (List.mem_cons_self c cs)
    simp [List.dropWhile_cons, hc]

lemma trimQuotes_eq_self (s : String) (h : ∀ c ∈ s.toList, c ≠ '"') :
    trimQuotes s = s := by
  unfold trimQuotes
  rw [dropWhile_quote_eq _ h, dropWhile_quote_eq, List.reverse_reverse]
  · cases s; rfl
  · intro c hc
    exact h c (List.mem_reverse.mp hc)

lemma toList_mk (cs : List Char) : String.toList ⟨cs⟩ = cs := rfl

lemma byteLen_mk (cs : List Char) : byteLen ⟨cs⟩ = byteLenChars cs := rfl

lemma trimQuotes_hexEncodeUpper (bs : List Nat) (hb : ∀ b ∈ bs, b < 256) :
    trimQuotes (hexEncodeUpper bs) = hexEncodeUpper bs :=
  trimQuotes_eq_self _ (hexEncodeUpperList_noQuote bs hb)

lemma parseInt256_hexEncodeUpper (bs : List Nat) (name : String)
    (hlen : bs.length = 32) (hb : ∀ b ∈ bs, b < 256) :
    parseInt256 (some (hexEncodeUpper bs)) name = Except.ok bs := by
  have h64 : byteLen (hexEncodeUpper bs) = 64 := by
    rw [hexEncodeUpper, byteLen_mk, byteLenChars_hexEncodeUpper bs hb, hlen]
  have hd : hexDecodeList (hexEncodeUpper bs).toList = some bs := by
    rw [hexEncodeUpper, toList_mk]
    exact hexDecode_hexEncodeUpper bs hb
  simp only [parseInt256, parseAny, trimQuotes_hexEncodeUpper bs hb, h64, hd,
    hlen, if_true, if_false]
  norm_num
  rfl

lemma parseData_hexEncodeUpper (bs : List Nat) (name : String)
    (hb : ∀ b ∈ bs, b < 256) :
    parseData (some (hexEncodeUpper bs)) name = Except.ok bs := by
  have hd : hexDecodeList (hexEncodeUpper bs).toList = some bs := by
    rw [hexEncodeUpper, toList_mk]
    exact hexDecode_hexEncodeUpper bs hb
  simp only [parseData, parseAny, trimQuotes_hexEncodeUpper bs hb, hd]
  rfl

lemma hexVal_lt16 {c : Char} {v : Nat} (h : hexVal c = some v) : v < 16 := by
  unfold hexVal at h
  split at h
  · injection h with h; omega
  · split at h
    · injection h with h; omega
    · split at h
      · injection h with h; omega
      · cases h

lemma hexVal_ascii {c : Char} {v : Nat} (h : hexVal c = some v) :
    c.toNat < 128 := by
  unfold hexVal at h
  split at h
  · omega
  · split at h
    · omega
    · split at h
      · omega
      · cases h

lemma hexDecodeList_bytes {cs : List Char} {bs : List Nat}
    (h : hexDecodeList cs = some bs) : ∀ b ∈ bs, b < 256 := by
  induction cs using hexDecodeList.induct generalizing bs with
  | case1 =>
    unfold hexDecodeList at h
    injection h with h
    subst h
    intro b hb
    cases hb
  | case2 c1 c2 rest v2 v1 h2 h1 ih =>
    unfold hexDecodeList at h
    rw [h1, h2] at h
    cases hrest : hexDecodeList rest with
    | none => rw [hrest] at h; cases h
    | some bs2 =>
      rw [hrest] at h
      simp only [Option.map_some] at h
      injection h with h
      subst h
      intro b hb
      rcases hb with _ | ⟨_, hb⟩
      · have := hexVal_lt16 h1
        have := hexVal_lt16 h2
        omega
      · exact ih hrest b hb
  | case3 c1 c2 rest hm =>
    unfold hexDecodeList at h
    split at h
    · rename_i hv1 hv2
      exact (hm _ _ hv1 hv2).elim
    · cases h
  | case4 t hne hm =>
    cases t with
    | nil => exact absurd rfl hne
    | cons c cs =>
      cases cs with
      | nil =>
        rw [show hexDecodeList [c] = none from rfl] at h
        cases h
      | cons c2 cs2 => exact absurd rfl (hm c c2 cs2)

lemma hexDecodeList_len_ascii {cs : List Char} {bs : List Nat}
    (h : hexDecodeList cs = some bs) :
    cs.length = 2 * bs.length ∧ byteLenChars cs = cs.length := by
  induction cs using hexDecodeList.induct generalizing bs with
  | case1 =>
    unfold hexDecodeList at h
    injection h with h
    subst h
    exact ⟨rfl, rfl⟩
  | case2 c1 c2 rest v2 v1 h2 h1 ih =>
    unfold hexDecodeList at h
    rw [h1, h2] at h
    cases hrest : hexDecodeList rest with
    | none => rw [hrest] at h; cases h
    | some bs2 =>
      rw [hrest] at h
      simp only [Option.map_some] at h
      injection h with h
      subst h
      have := ih hrest
      constructor
      · simp only [List.length_cons]
        omega
      · simp only [byteLenChars, List.map_cons, List.sum_cons] at *
        rw [charSize_eq_one (hexVal_ascii h1), charSize_eq_one (hexVal_ascii h2)]
        simp only [List.length_cons]
        omega
  | case3 c1 c2 rest hm =>
    unfold hexDecodeList at h
    split at h
    · rename_i hv1 hv2
      exact (hm _ _ hv1 hv2).elim
    · cases h
  | case4 t hne hm =>
    cases t with
    | nil => exact absurd rfl hne
    | cons c cs =>
      cases cs with
      | nil =>
        rw [show hexDecodeList [c] = none from rfl] at h
        cases h
      | cons c2 cs2 => exact absurd rfl (hm c c2 cs2)

lemma digVal_digitChar : ∀ d : Nat, d < 10 →
    digVal (Char.ofNat (48 + d)) = some d := by
  decide

lemma digitChar_toNat : ∀ d : Nat, d < 10 →
    (Char.ofNat (48 + d)).toNat = 48 + d := by
  decide

lemma natToRevDigits_digits (n : Nat) :
    ∀ c ∈ natToRevDigits n, ∃ d, d < 10 ∧ c = Char.ofNat (48 + d) := by
  induction n using natToRevDigits.induct with
  | case1 n h =>
    intro c hc
    rw [natToRevDigits, dif_pos h] at hc
    rcases hc with _ | ⟨_, hc⟩
    · exact ⟨n, h, rfl⟩
    · cases hc
  | case2 n h ih =>
    intro c hc
    rw [natToRevDigits, dif_neg h] at hc
    rcases hc with _ | ⟨_, hc⟩
    · exact ⟨n % 10, by omega, rfl⟩
    · exact ih c hc

lemma natToRevDigits_ne_nil (n : Nat) : natToRevDigits n ≠ [] := by
  rw [natToRevDigits]
  split <;> simp

lemma parseDigitsAux_append (xs ys : List Char) (a : Nat) :
    parseDigitsAux (xs ++ ys) a =
      match parseDigitsAux xs a with
      | some b => parseDigitsAux ys b
      | none => none := by
  induction xs generalizing a with
  | nil => rfl
  | cons c cs ih =>
    simp only [List.cons_append, parseDigitsAux]
    cases digVal c with
    | none => rfl
    | some d => exact ih (a * 10 + d)

lemma parseDigitsAux_natToRevDigits (n : Nat) : ∀ a,
    parseDigitsAux (natToRevDigits n).reverse a =
      some (a * 10 ^ (natToRevDigits n).length + n) := by
  induction n using natToRevDigits.induct with
  | case1 n h =>
    intro a
    rw [natToRevDigits, dif_pos h]
    simp only [List.reverse_cons, List.reverse_nil, List.nil_append,
      parseDigitsAux, digVal_digitChar n h, List.length_cons, List.length_nil]
    norm_num
  | case2 n h ih =>
    intro a
    rw [natToRevDigits, dif_neg h]
    rw [List.reverse_cons, parseDigitsAux_append, ih a]
    simp only [parseDigitsAux, digVal_digitChar (n % 10) (by omega : n % 10 < 10),
      List.length_cons]
    rw [pow_succ, ← mul_assoc]
    congr 1
    generalize a * 10 ^ (natToRevDigits (n / 10)).length = u
    omega

lemma intToDecString_noQuote (i : Int) :
    ∀ c ∈ (intToDecString i).toList, c ≠ '"' := by
  unfold intToDecString
  have hd : ∀ n : Nat, ∀ c ∈ (natToRevDigits n).reverse, c ≠ '"' := by
    intro n c hc he
    obtain ⟨d, hd10, hdc⟩ := natToRevDigits_digits n c (List.mem_reverse.mp hc)
    have hct : c.toNat = 48 + d := by rw [hdc]; exact digitChar_toNat d hd10
    have h34 : ('"').toNat = 34 := rfl
    rw [he, h34] at hct
    omega
  split
  · intro c hc
    rw [toList_mk] at hc
    rcases hc with _ | ⟨_, hc⟩
    · intro he; cases he
    · exact hd _ c hc
  · intro c hc
    rw [toList_mk] at hc
    exact hd _ c hc

lemma i32Core_natToRevDigits (n : Nat) (neg : Bool) :
    i32Core (natToRevDigits n).reverse neg =
      (if neg then if (n : Int) ≤ 2 ^ 31 then some (-(n : Int)) else none
       else if (n : Int) < 2 ^ 31 then some (n : Int) else none) := by
  obtain ⟨c, cs, hcs⟩ := List.exists_cons_of_ne_nil
    (show (natToRevDigits n).reverse ≠ [] by
      simp [natToRevDigits_ne_nil])
  have hp : parseDigitsAux (c :: cs) 0 = some n := by
    rw [← hcs, parseDigitsAux_natToRevDigits]
    simp
  rw [hcs]
  unfold i32Core
  rw [hp]

lemma i32FromStr_intToDecString (i : Int) (h1 : -(2 ^ 31) ≤ i)
    (h2 : i < 2 ^ 31) : i32FromStr (intToDecString i) = some i := by
  unfold intToDecString i32FromStr
  by_cases hneg : i < 0
  · rw [if_pos hneg, toList_mk]
    show i32Core (natToRevDigits (-i).toNat).reverse true = some i
    rw [i32Core_natToRevDigits]
    simp only [if_true]
    rw [if_pos (by omega : (((-i).toNat : Int) ≤ 2 ^ 31))]
    congr 1
    omega
  · rw [if_neg hneg, toList_mk]
    obtain ⟨c, cs, hcs⟩ := List.exists_cons_of_ne_nil
      (show (natToRevDigits i.toNat).reverse ≠ [] by
        simp [natToRevDigits_ne_nil])
    obtain ⟨d, hd10, hdc⟩ := natToRevDigits_digits i.toNat c
      (List.mem_reverse.mp (hcs ▸ List.mem_cons_self c cs))
    have hcd : c.toNat = 48 + d := by rw [hdc]; exact digitChar_toNat d hd10
    have hm : ('-').toNat = 45 := rfl
    have hp : ('+').toNat = 43 := rfl
    rw [hcs]
    simp only []
    rw [if_neg (fun he => by rw [he, hm] at hcd; omega),
      if_neg (fun he => by rw [he, hp] at hcd; omega),
      ← hcs, i32Core_natToRevDigits]
    simp only [if_false, Bool.false_eq_true]
    rw [if_pos (by omega : ((i.toNat : Int) < 2 ^ 31))]
    congr 1
    omega

lemma i32Core_range {cs : List Char} {neg : Bool} {i : Int}
    (h : i32Core cs neg = some i) : -(2 ^ 31) ≤ i ∧ i < 2 ^ 31 := by
  unfold i32Core at h
  split at h
  · cases h
  · split at h
    · cases h
    · rename_i n hn
      split at h
      · split at h
        · injection h with h
          rename_i hle
          omega
        · cases h
      · split at h
        · injection h with h
          rename_i hlt
          omega
        · cases h

lemma i32FromStr_range {s : String} {i : Int} (h : i32FromStr s = some i) :
    -(2 ^ 31) ≤ i ∧ i < 2 ^ 31 := by
  unfold i32FromStr at h
  split at h
  · cases h
  · split at h
    · exact i32Core_range h
    · split at h
      · exact i32Core_range h
      · exact i32Core_range h

lemma parseInt_intToDecString (i : Int) (name : String) (h1 : -(2 ^ 31) ≤ i)
    (h2 : i < 2 ^ 31) :
    parseInt (some (intToDecString i)) name = Except.ok i := by
  simp only [parseInt, parseAny, trimQuotes_eq_self _ (intToDecString_noQuote i),
    i32FromStr_intToDecString i h1 h2]
  rfl

lemma parseInt_ok_range {p : Option String} {name : String} {i : Int}
    (h : parseInt p name = Except.ok i) : -(2 ^ 31) ≤ i ∧ i < 2 ^ 31 := by
  unfold parseInt parseAny at h
  cases p with
  | none => cases h
  | some s =>
    simp only [] at h
    cases hf : i32FromStr (trimQuotes s) with
    | none => rw [hf] at h; cases h
    | some j =>
      rw [hf] at h
      injection h with h
      subst h
      exact i32FromStr_range hf

lemma beBytes_length (w v : Nat) : (beBytes w v).length = w := by
  induction w generalizing v with
  | zero => rfl
  | succ w ih => simp [beBytes, ih]

lemma beBytes_lt256 (w v : Nat) : ∀ b ∈ beBytes w v, b < 256 := by
  induction w generalizing v with
  | zero => intro b hb; cases hb
  | succ w ih =>
    intro b hb
    rw [beBytes] at hb
    rcases List.mem_append.mp hb with hb | hb
    · exact ih (v / 256) b hb
    · rcases hb with _ | ⟨_, hb⟩
      · omega
      · cases hb

lemma i32BeBytes_length (i : Int) : (i32BeBytes i).length = 4 :=
  beBytes_length 4 _

lemma i32BeBytes_lt256 (i : Int) : ∀ b ∈ i32BeBytes i, b < 256 :=
  beBytes_lt256 4 _

/-! ## The election-bid run -/

lemma Trace.empty_app (t : Trace) : Trace.app Trace.empty t = t := by
  cases t
  simp [Trace.app, Trace.empty]

lemma Trace.app_mk (a b : List TLRequest) (c d : List (String × List Nat)) :
    Trace.app ⟨a, c⟩ ⟨b, d⟩ = ⟨a ++ b, c ++ d⟩ := rfl

/-- One successful round trip of `process_command`, fully characterised. -/
lemma processCommand_run {ext : Externals}
    {oracle : Nat → TLRequest → Except String TLObject} {n : Nat}
    {name : String} {params : List String} {q : TLRequest} {a : TLObject}
    {out : ReceiveOk}
    (hsend : commandSend ext name params = Except.ok q)
    (horacle : oracle n q = Except.ok a)
    (hrecv : commandReceive ext name a params = Except.ok out)
    (hncqe : ∀ code msg, a ≠ TLObject.controlQueryError code msg) :
    processCommand ext oracle n name params =
      (Except.ok (out.description, out.bytes), ⟨[q], out.writes⟩) := by
  unfold processCommand
  rw [hsend]
  simp only []
  rw [horacle]
  cases a <;> first
    | exact absurd rfl (hncqe _ _)
    | (simp only []; rw [hrecv])

/-- The exact byte string handed to the remote `sign` command by the
election-bid orchestrator (`validator-elect-req.fif` layout). -/
def bidSignData (elect : Int) (mf : ℚ) (wallet adnl : List Nat) : List Nat :=
  beBytes 4 0x654C5074 ++ i32BeBytes elect ++ beBytes 4 (maxFactorFixed mf) ++
    wallet ++ adnl

/-- The eight control queries a successful election-bid run sends, in order. -/
def bidSentList (nowv elect expire : Int) (mf : ℚ)
    (wallet perm adnl : List Nat) : List TLRequest :=
  [TLRequest.generateKeyPair,
   TLRequest.exportPublicKey perm,
   TLRequest.addValidatorPermanentKey perm elect (expire - elect),
   TLRequest.addValidatorTempKey perm perm (expire - nowv),
   TLRequest.generateKeyPair,
   TLRequest.addAdnlId adnl 0,
   TLRequest.addValidatorAdnlAddress perm adnl (elect - nowv),
   TLRequest.sign perm (bidSignData elect mf wallet adnl)]

/-- The submission body the orchestrator builds
(`validator-elect-signed.fif` layout): the fixed data bits in the root cell
and the signature as the single referenced sub-cell. -/
def bidBody (nowv elect : Int) (mf : ℚ) (pub_key adnl sig : List Nat) :
    RootCell :=
  ⟨beBytes 4 0x4E73744B ++ beBytes 8 (i32AsU64 nowv) ++ pub_key ++
     i32BeBytes elect ++ beBytes 4 (maxFactorFixed mf) ++ adnl, 672,
   [⟨sig, 512⟩]⟩

/-- A well-formed election-bid scenario: the configuration and parameters
pass the preconditions and the remote answers every query of the run with a
well-shaped payload (answers are allowed to depend only on the query
ordinal, matching a remote that cannot see inside the encrypted frames). -/
structure BidScenario (ext : Externals)
    (oracle : Nat → TLRequest → Except String TLObject)
    (cfg : AdnlConsoleConfigJson) (params : List String) : Type where
  w : String
  wallet : List Nat
  elect : Int
  expire : Int
  mf : ℚ
  perm : List Nat
  pub_key : List Nat
  adnl : List Nat
  sig : List Nat
  hw : cfg.wallet_id = some w
  htrim : trimQuotes w = w
  hpre : startsWithStr w "-1:" = true
  hdec : hexDecodeList (w.toList.drop 3) = some wallet
  het : parseInt params[0]? "elect_time" = Except.ok elect
  het0 : 0 < elect
  hxt : parseInt params[1]? "expire_time" = Except.ok expire
  hxt0 : elect < expire
  hmf : cfg.max_factor = some mf
  hmf1 : 1 ≤ mf
  hmf100 : mf ≤ 100
  hperm : perm.length = 32
  hpermB : ∀ b ∈ perm, b < 256
  hpub : pub_key.length = 32
  hadnl : adnl.length = 32
  hadnlB : ∀ b ∈ adnl, b < 256
  hsig : sig.length = 64
  ho0 : oracle 0 = fun _ => Except.ok (TLObject.keyHash perm)
  ho1 : oracle 1 = fun _ => Except.ok (TLObject.publicKey (some pub_key))
  ho2 : oracle 2 = fun _ => Except.ok TLObject.success
  ho3 : oracle 3 = fun _ => Except.ok TLObject.success
  ho4 : oracle 4 = fun _ => Except.ok (TLObject.keyHash adnl)
  ho5 : oracle 5 = fun _ => Except.ok TLObject.success
  ho6 : oracle 6 = fun _ => Except.ok TLObject.success
  ho7 : oracle 7 = fun _ => Except.ok (TLObject.signature sig)

set_option maxHeartbeats 2000000 in
/-- Full characterisation of an election-bid run in a well-formed scenario:
the orchestrator sends exactly the eight queries of `bidSentList`, verifies
the signature over the canonical byte string, and only on success serializes
`bidBody` and writes it to the output path. -/
lemma bid_run {ext : Externals} {oracle : Nat → TLRequest → Except String TLObject}
    {cfg : AdnlConsoleConfigJson} {params : List String}
    (s : BidScenario ext oracle cfg params) :
    processElectionBid ext oracle cfg params =
      (if ext.verify s.pub_key (bidSignData s.elect s.mf s.wallet s.adnl) s.sig then
        (Except.ok ("Message body is " ++
            base64Encode (ext.serializeToc
              (bidBody ext.nowv s.elect s.mf s.pub_key s.adnl s.sig)) ++
            " saved to path " ++ ((params[2]?).getD "validator-query.boc"),
          ext.serializeToc (bidBody ext.nowv s.elect s.mf s.pub_key s.adnl s.sig)),
         ⟨bidSentList ext.nowv s.elect s.expire s.mf s.wallet s.perm s.adnl,
          [((params[2]?).getD "validator-query.boc",
            ext.serializeToc (bidBody ext.nowv s.elect s.mf s.pub_key s.adnl s.sig))]⟩)
      else
        (Except.error CError.signatureCheckFailed,
         ⟨bidSentList ext.nowv s.elect s.expire s.mf s.wallet s.perm s.adnl, []⟩)) := by
  obtain ⟨her1, her2⟩ := parseInt_ok_range s.het
  obtain ⟨hxr1, hxr2⟩ := parseInt_ok_range s.hxt
  have hwalB : ∀ b ∈ s.wallet, b < 256 := hexDecodeList_bytes s.hdec
  have hsignB : ∀ b ∈ (beBytes 4 0x654C5074 ++ i32BeBytes s.elect ++
      beBytes 4 (maxFactorFixed s.mf) ++ s.wallet ++ s.adnl), b < 256 := by
    intro b hb
    rcases List.mem_append.mp hb with hb | hb
    · rcases List.mem_append.mp hb with hb | hb
      · rcases List.mem_append.mp hb with hb | hb
        · rcases List.mem_append.mp hb with hb | hb
          · exact beBytes_lt256 4 _ b hb
          · exact i32BeBytes_lt256 _ b hb
        · exact beBytes_lt256 4 _ b hb
      · exact hwalB b hb
    · exact s.hadnlB b hb
  have hp256 : ∀ nm, parseInt256 (some (hexEncodeUpper s.perm)) nm =
      Except.ok s.perm := fun nm =>
    parseInt256_hexEncodeUpper _ nm s.hperm s.hpermB
  have ha256 : ∀ nm, parseInt256 (some (hexEncodeUpper s.adnl)) nm =
      Except.ok s.adnl := fun nm =>
    parseInt256_hexEncodeUpper _ nm s.hadnl s.hadnlB
  have hie : ∀ nm, parseInt (some (intToDecString s.elect)) nm =
      Except.ok s.elect := fun nm => parseInt_intToDecString _ nm her1 her2
  have hix : ∀ nm, parseInt (some (intToDecString s.expire)) nm =
      Except.ok s.expire := fun nm => parseInt_intToDecString _ nm hxr1 hxr2
  have hdat : parseData (some (hexEncodeUpper (beBytes 4 0x654C5074 ++
      i32BeBytes s.elect ++ beBytes 4 (maxFactorFixed s.mf) ++ s.wallet ++
      s.adnl))) "data" = Except.ok (beBytes 4 0x654C5074 ++
      i32BeBytes s.elect ++ beBytes 4 (maxFactorFixed s.mf) ++ s.wallet ++
      s.adnl) := parseData_hexEncodeUpper _ _ hsignB
  have hwal : parseAny cfg.wallet_id "wallet_id" (fun value =>
      if ¬ startsWithStr value "-1:" then Except.error CError.useMasterchainWallet
      else match hexDecodeList (value.toList.drop 3) with
        | some w => Except.ok w
        | none => Except.error CError.hexError) = Except.ok s.wallet := by
    rw [s.hw]
    simp only [parseAny, s.htrim, s.hpre, s.hdec]
    rfl
  have hnc : ∀ (c : Int) (m : String) (kh : List Nat),
      TLObject.keyHash kh ≠ TLObject.controlQueryError c m :=
    fun _ _ _ h => TLObject.noConfusion h
  have st0 : processCommand ext oracle 0 "newkey" [] =
      (Except.ok ("received public key hash: " ++ hexEncodeLower s.perm ++
        " " ++ base64Encode s.perm, s.perm),
       ⟨[TLRequest.generateKeyPair], []⟩) :=
    processCommand_run
      (show commandSend ext "newkey" [] = Except.ok TLRequest.generateKeyPair
        from rfl)
      (congrFun s.ho0 _)
      (show commandReceive ext "newkey" (TLObject.keyHash s.perm) [] =
        Except.ok ⟨"received public key hash: " ++ hexEncodeLower s.perm ++
          " " ++ base64Encode s.perm, s.perm, []⟩ from rfl)
      (fun _ _ h => TLObject.noConfusion h)
  have st1send : commandSend ext "exportpub" [hexEncodeUpper s.perm] =
      Except.ok (TLRequest.exportPublicKey s.perm) := by
    simp only [commandSend, List.getElem?_cons_zero, hp256]
    rfl
  have st1 : processCommand ext oracle 1 "exportpub" [hexEncodeUpper s.perm] =
      (Except.ok ("imported key: " ++ hexEncodeLower s.pub_key ++ " " ++
        base64Encode s.pub_key, s.pub_key),
       ⟨[TLRequest.exportPublicKey s.perm], []⟩) :=
    processCommand_run st1send (congrFun s.ho1 _)
      (show commandReceive ext "exportpub"
          (TLObject.publicKey (some s.pub_key)) [hexEncodeUpper s.perm] =
        Except.ok ⟨"imported key: " ++ hexEncodeLower s.pub_key ++ " " ++
          base64Encode s.pub_key, s.pub_key, []⟩ from rfl)
      (fun _ _ h => TLObject.noConfusion h)
  have st2send : commandSend ext "addpermkey"
      [hexEncodeUpper s.perm, intToDecString s.elect, intToDecString s.expire] =
      Except.ok (TLRequest.addValidatorPermanentKey s.perm s.elect
        (s.expire - s.elect)) := by
    simp only [commandSend, List.getElem?_cons_zero, List.getElem?_cons_succ,
      hp256, hie, hix]
    rfl
  have st2 : processCommand ext oracle 2 "addpermkey"
      [hexEncodeUpper s.perm, intToDecString s.elect, intToDecString s.expire] =
      (Except.ok ("success", []),
       ⟨[TLRequest.addValidatorPermanentKey s.perm s.elect
          (s.expire - s.elect)], []⟩) :=
    processCommand_run st2send (congrFun s.ho2 _)
      (show commandReceive ext "addpermkey" TLObject.success
          [hexEncodeUpper s.perm, intToDecString s.elect,
           intToDecString s.expire] =
        Except.ok ⟨"success", [], []⟩ from rfl)
      (fun _ _ h => TLObject.noConfusion h)
  have st3send : commandSend ext "addtempkey"
      [hexEncodeUpper s.perm, hexEncodeUpper s.perm, intToDecString s.expire] =
      Except.ok (TLRequest.addValidatorTempKey s.perm s.perm
        (s.expire - ext.nowv)) := by
    simp only [commandSend, List.getElem?_cons_zero, List.getElem?_cons_succ,
      hp256, hix]
    rfl
  have st3 : processCommand ext oracle 3 "addtempkey"
      [hexEncodeUpper s.perm, hexEncodeUpper s.perm, intToDecString s.expire] =
      (Except.ok ("success", []),
       ⟨[TLRequest.addValidatorTempKey s.perm s.perm (s.expire - ext.nowv)],
        []⟩) :=
    processCommand_run st3send (congrFun s.ho3 _)
      (show commandReceive ext "addtempkey" TLObject.success
          [hexEncodeUpper s.perm, hexEncodeUpper s.perm,
           intToDecString s.expire] =
        Except.ok ⟨"success", [], []⟩ from rfl)
      (fun _ _ h => TLObject.noConfusion h)
  have st4 : processCommand ext oracle 4 "newkey" [] =
      (Except.ok ("received public key hash: " ++ hexEncodeLower s.adnl ++
        " " ++ base64Encode s.adnl, s.adnl),
       ⟨[TLRequest.generateKeyPair], []⟩) :=
    processCommand_run
      (show commandSend ext "newkey" [] = Except.ok TLRequest.generateKeyPair
        from rfl)
      (congrFun s.ho4 _)
      (show commandReceive ext "newkey" (TLObject.keyHash s.adnl) [] =
        Except.ok ⟨"received public key hash: " ++ hexEncodeLower s.adnl ++
          " " ++ base64Encode s.adnl, s.adnl, []⟩ from rfl)
      (fun _ _ h => TLObject.noConfusion h)
  have st5send : commandSend ext "addadnl" [hexEncodeUpper s.adnl, "0"] =
      Except.ok (TLRequest.addAdnlId s.adnl 0) := by
    simp only [commandSend, List.getElem?_cons_zero, List.getElem?_cons_succ,
      ha256]
    rw [show parseInt (some "0") "category" = Except.ok 0 from rfl]
    rfl
  have st5 : processCommand ext oracle 5 "addadnl"
      [hexEncodeUpper s.adnl, "0"] =
      (Except.ok ("success", []), ⟨[TLRequest.addAdnlId s.adnl 0], []⟩) :=
    processCommand_run st5send (congrFun s.ho5 _)
      (show commandReceive ext "addadnl" TLObject.success
          [hexEncodeUpper s.adnl, "0"] =
        Except.ok ⟨"success", [], []⟩ from rfl)
      (fun _ _ h => TLObject.noConfusion h)
  have st6send : commandSend ext "addvalidatoraddr"
      [hexEncodeUpper s.perm, hexEncodeUpper s.adnl, intToDecString s.elect] =
      Except.ok (TLRequest.addValidatorAdnlAddress s.perm s.adnl
        (s.elect - ext.nowv)) := by
    simp only [commandSend, List.getElem?_cons_zero, List.getElem?_cons_succ,
      hp256, ha256, hie]
    rfl
  have st6 : processCommand ext oracle 6 "addvalidatoraddr"
      [hexEncodeUpper s.perm, hexEncodeUpper s.adnl, intToDecString s.elect] =
      (Except.ok ("success", []),
       ⟨[TLRequest.addValidatorAdnlAddress s.perm s.adnl (s.elect - ext.nowv)],
        []⟩) :=
    processCommand_run st6send (congrFun s.ho6 _)
      (show commandReceive ext "addvalidatoraddr" TLObject.success
          [hexEncodeUpper s.perm, hexEncodeUpper s.adnl,
           intToDecString s.elect] =
        Except.ok ⟨"success", [], []⟩ from rfl)
      (fun _ _ h => TLObject.noConfusion h)
  have st7send : commandSend ext "sign"
      [hexEncodeUpper s.perm, hexEncodeUpper (beBytes 4 0x654C5074 ++
        i32BeBytes s.elect ++ beBytes 4 (maxFactorFixed s.mf) ++ s.wallet ++
        s.adnl)] =
      Except.ok (TLRequest.sign s.perm (beBytes 4 0x654C5074 ++
        i32BeBytes s.elect ++ beBytes 4 (maxFactorFixed s.mf) ++ s.wallet ++
        s.adnl)) := by
    simp only [commandSend, List.getElem?_cons_zero, List.getElem?_cons_succ,
      hp256, hdat]
    rfl
  have st7 : processCommand ext oracle 7 "sign"
      [hexEncodeUpper s.perm, hexEncodeUpper (beBytes 4 0x654C5074 ++
        i32BeBytes s.elect ++ beBytes 4 (maxFactorFixed s.mf) ++ s.wallet ++
        s.adnl)] =
      (Except.ok ("got signature: " ++ hexEncodeLower s.sig ++ " " ++
        base64Encode s.sig, s.sig),
       ⟨[TLRequest.sign s.perm (beBytes 4 0x654C5074 ++ i32BeBytes s.elect ++
          beBytes 4 (maxFactorFixed s.mf) ++ s.wallet ++ s.adnl)], []⟩) :=
    processCommand_run st7send (congrFun s.ho7 _)
      (show commandReceive ext "sign" (TLObject.signature s.sig)
          [hexEncodeUpper s.perm, hexEncodeUpper (beBytes 4 0x654C5074 ++
            i32BeBytes s.elect ++ beBytes 4 (maxFactorFixed s.mf) ++
            s.wallet ++ s.adnl)] =
        Except.ok ⟨"got signature: " ++ hexEncodeLower s.sig ++ " " ++
          base64Encode s.sig, s.sig, []⟩ from rfl)
      (fun _ _ h => TLObject.noConfusion h)
  have hc1 : ¬ (s.elect ≤ 0) := by have := s.het0; omega
  have hc2 : ¬ (s.expire ≤ s.elect) := by have := s.hxt0; omega
  have hc3 : ¬ (s.mf < 1 ∨ s.mf > 100) := by
    rintro (h | h) <;> linarith [s.hmf1, s.hmf100]
  have hlen2 : (beBytes 4 0x4E73744B ++ beBytes 8 (i32AsU64 ext.nowv) ++
      s.pub_key ++ i32BeBytes s.elect ++ beBytes 4 (maxFactorFixed s.mf) ++
      s.adnl).length = 84 := by
    simp [List.length_append, beBytes_length, i32BeBytes_length, s.hpub,
      s.hadnl]
  unfold processElectionBid
  rw [hwal]
  simp only []
  rw [s.het]
  simp only []
  rw [if_neg hc1]
  rw [s.hxt]
  simp only []
  rw [if_neg hc2]
  rw [s.hmf]
  simp only []
  rw [if_neg hc3]
  simp only [st0, st1, st2, st3, st4, st5, st6, st7, orStep,
    Trace.empty_app, Trace.app_mk, List.nil_append, List.append_nil,
    List.cons_append, List.length_cons, List.length_nil, Nat.reduceAdd]
  rw [s.hpub]
  rw [if_pos (rfl : (32 : Nat) = 32)]
  rw [hlen2]
  rw [show (84 * 8 : Nat) = 672 from rfl]
  simp only [withRaw]
  rw [if_pos (by norm_num : (672 : Nat) ≤ 1023)]
  simp only []
  rw [s.hsig]
  rw [show (64 * 8 : Nat) = 512 from rfl]
  rw [if_pos (by norm_num : (512 : Nat) ≤ 1023)]
  simp only [appendReference, List.nil_append]
  simp only [bidSignData, bidSentList, bidBody, Trace.app_mk,
    List.append_nil, List.nil_append, List.cons_append]

/-! ## Concrete fixtures used by the witnesses -/

/-- A 64-character all-zero hex string. -/
def hex64z : String :=
  "0000000000000000000000000000000000000000000000000000000000000000"

/-- An all-zero byte string. -/
def zeros (n : Nat) : List Nat := List.replicate n 0

/-- Concrete externals: trivial codecs, rejecting verifier, clock at 50. -/
def exampleExt : Externals :=
  ⟨fun _ => [], fun c => c.data, fun _ => Except.error "no parser",
   fun _ => none, fun _ _ _ => false, 50⟩

/-- Same externals with an accepting verifier. -/
def exampleExtOk : Externals :=
  ⟨fun _ => [], fun c => c.data, fun _ => Except.error "no parser",
   fun _ => none, fun _ _ _ => true, 50⟩

/-- A remote that answers the election-bid call sequence with well-shaped
payloads, keyed by the query ordinal. -/
def exampleOracle : Nat → TLRequest → Except String TLObject := fun n _ =>
  if n = 0 then Except.ok (TLObject.keyHash (zeros 32))
  else if n = 1 then Except.ok (TLObject.publicKey (some (zeros 32)))
  else if n = 4 then Except.ok (TLObject.keyHash (List.replicate 32 1))
  else if n = 7 then Except.ok (TLObject.signature (zeros 64))
  else Except.ok TLObject.success

/-- A remote that fails every query at the transport level. -/
def deadOracle : Nat → TLRequest → Except String TLObject :=
  fun _ _ => Except.error "no remote"

/-- A console configuration with a masterchain wallet and `max_factor` 2.7. -/
def exampleCfg : AdnlConsoleConfigJson :=
  ⟨some ("-1:" ++ hex64z), some (mkRat 27 10)⟩

/-- The concrete fixtures form a well-formed election-bid scenario, for any
externals (the scenario constrains only the oracle, the configuration and
the parameters). -/
def exampleScenarioFor (ext : Externals) :
    BidScenario ext exampleOracle exampleCfg ["100", "200"] where
  w := "-1:" ++ hex64z
  wallet := zeros 32
  elect := 100
  expire := 200
  mf := mkRat 27 10
  perm := zeros 32
  pub_key := zeros 32
  adnl := List.replicate 32 1
  sig := zeros 64
  hw := rfl
  htrim := by decide
  hpre := by decide
  hdec := by decide
  het := by decide
  het0 := by decide
  hxt := by decide
  hxt0 := by decide
  hmf := rfl
  hmf1 := by rw [Rat.mkRat_eq_div]; norm_num
  hmf100 := by rw [Rat.mkRat_eq_div]; norm_num
  hperm := by decide
  hpermB := by decide
  hpub := by decide
  hadnl := by decide
  hadnlB := by decide
  hsig := by decide
  ho0 := rfl
  ho1 := rfl
  ho2 := rfl
  ho3 := rfl
  ho4 := rfl
  ho5 := rfl
  ho6 := rfl
  ho7 := rfl

lemma mapError_eq_ok {ε ε' α : Type} {f : ε → ε'} {x : Except ε α} {a : α}
    (h : Except.mapError f x = Except.ok a) : x = Except.ok a := by
  cases x with
  | ok b =>
    have hb : b = a := by
      simp only [Except.mapError, Except.map] at h
      injection h
    rw [hb]
  | error e => simp [Except.mapError, Except.map] at h

/-! ## Claims -/

/-- C2 (amended): for every add-key command the TTL sent to the remote is
computed as claimed — `expire_at - election_date` for the permanent key,
`expire_at - now()` for the temporary and network-address keys — but the
client performs no positivity check on the result: the request is built for
any TTL, so the binders below carry no positivity hypothesis at all. -/
theorem C2_addkey_ttl (ext : Externals) (p1 p2 p3 : String)
    (kh pkh : List Nat) (ed ea : Int) :
    (parseInt256 (some p1) "key_hash" = Except.ok kh →
     parseInt (some p2) "election_date" = Except.ok ed →
     parseInt (some p3) "expire_at" = Except.ok ea →
     commandSend ext "addpermkey" [p1, p2, p3] =
       Except.ok (TLRequest.addValidatorPermanentKey kh ed (ea - ed))) ∧
    (parseInt256 (some p1) "permanent_key_hash" = Except.ok pkh →
     parseInt256 (some p2) "key_hash" = Except.ok kh →
     parseInt (some p3) "expire_at" = Except.ok ea →
     commandSend ext "addtempkey" [p1, p2, p3] =
       Except.ok (TLRequest.addValidatorTempKey pkh kh (ea - ext.nowv)) ∧
     commandSend ext "addvalidatoraddr" [p1, p2, p3] =
       Except.ok (TLRequest.addValidatorAdnlAddress pkh kh (ea - ext.nowv))) := by
  constructor
  · intro h1 h2 h3
    simp only [commandSend, List.getElem?_cons_zero, List.getElem?_cons_succ,
      h1, h2, h3]
    rfl
  · intro h1 h2 h3
    constructor <;>
    · simp only [commandSend, List.getElem?_cons_zero, List.getElem?_cons_succ,
        h1, h2, h3]
      rfl

/-- C2 witness: the TTL computations at concrete inputs. -/
theorem C2_addkey_ttl_witness :
    commandSend exampleExt "addpermkey" [hex64z, "100", "300"] =
      Except.ok (TLRequest.addValidatorPermanentKey (zeros 32) 100 200) ∧
    commandSend exampleExt "addtempkey" [hex64z, hex64z, "300"] =
      Except.ok (TLRequest.addValidatorTempKey (zeros 32) (zeros 32) 250) := by
  constructor
  · exact (C2_addkey_ttl exampleExt hex64z "100" "300" (zeros 32) (zeros 32)
      100 300).1 (by decide) (by decide) (by decide)
  · exact ((C2_addkey_ttl exampleExt hex64z hex64z "300" (zeros 32) (zeros 32)
      100 300).2 (by decide) (by decide) (by decide)).1

/-- C2 counterexample: the claim's "a non-positive TTL is rejected" is false —
with `election_date` 100 and `expire_at` 50 the request is built successfully
with TTL `-50`. -/
theorem C2_addkey_ttl_counterexample :
    commandSend exampleExt "addpermkey" [hex64z, "100", "50"] =
      Except.ok (TLRequest.addValidatorPermanentKey (zeros 32) 100 (-50)) := by
  decide

/-- C4: hash-parameter parsing dispatches on byte length — 44 means base64,
64 means hex, any other length is the "wrong hash" format error — a valid
decode is returned identically (32 bytes), and a missing parameter is the
"insufficient parameters" error. -/
theorem C4_parse_int256 :
    (∀ name : String, parseInt256 none name =
      Except.error (CError.mustGive (name ++ " in hex or base64 format")
        CError.insufficientParameters)) ∧
    (∀ (s name : String) (bs : List Nat), byteLen (trimQuotes s) = 44 →
      base64DecodeChars (trimQuotes s).toList = some bs → bs.length = 32 →
      parseInt256 (some s) name = Except.ok bs) ∧
    (∀ (s name : String) (bs : List Nat), byteLen (trimQuotes s) = 64 →
      hexDecodeList (trimQuotes s).toList = some bs →
      parseInt256 (some s) name = Except.ok bs ∧ bs.length = 32) ∧
    (∀ s name : String, byteLen (trimQuotes s) ≠ 44 →
      byteLen (trimQuotes s) ≠ 64 →
      parseInt256 (some s) name =
        Except.error (CError.mustGive (name ++ " in hex or base64 format")
          (CError.wrongHash (trimQuotes s) (byteLen (trimQuotes s))))) := by
  refine ⟨fun name => rfl, ?_, ?_, ?_⟩
  · intro s name bs h44 hdec hlen
    unfold parseInt256 parseAny
    simp only []
    rw [if_pos h44, hdec]
    simp only []
    rw [if_pos hlen]
    rfl
  · intro s name bs h64 hdec
    have hlen : bs.length = 32 := by
      have h := hexDecodeList_len_ascii hdec
      have hb : byteLen (trimQuotes s) = byteLenChars (trimQuotes s).toList :=
        rfl
      omega
    constructor
    · unfold parseInt256 parseAny
      simp only []
      rw [if_neg (by omega), if_pos h64, hdec]
      simp only []
      rw [if_pos hlen]
      rfl
    · exact hlen
  · intro s name h44 h64
    unfold parseInt256 parseAny
    simp only []
    rw [if_neg h44, if_neg h64]
    rfl

/-- C4 witness: the two encodings of the zero hash parse to the same 32
bytes, a 2-character string is a "wrong hash" error, and a missing parameter
is a parameter error. -/
theorem C4_parse_int256_witness :
    parseInt256 none "h" =
      Except.error (CError.mustGive "h in hex or base64 format"
        CError.insufficientParameters) ∧
    parseInt256 (some "AAAAAAAAAAAAAAAAAAAAAAAAAAAAAAAAAAAAAAAAAAA=") "h" =
      Except.ok (zeros 32) ∧
    parseInt256 (some hex64z) "h" = Except.ok (zeros 32) ∧
    parseInt256 (some "XY") "h" =
      Except.error (CError.mustGive "h in hex or base64 format"
        (CError.wrongHash "XY" 2)) := by
  refine ⟨(C4_parse_int256.1 "h"), ?_, ?_, ?_⟩
  · exact C4_parse_int256.2.1 "AAAAAAAAAAAAAAAAAAAAAAAAAAAAAAAAAAAAAAAAAAA=" "h"
      (zeros 32) (by decide) (by decide) (by decide)
  · exact (C4_parse_int256.2.2.1 hex64z "h" (zeros 32) (by decide)
      (by decide)).1
  · exact C4_parse_int256.2.2.2 "XY" "h" (by decide) (by decide)

/-- C7: the `addadnl` category is accepted iff `0 ≤ c ≤ 15`; an out-of-range
category fails during request building, and then no request at all goes over
the channel. -/
theorem C7_addadnl_category (ext : Externals) (p1 p2 : String)
    (kh : List Nat) (c : Int)
    (h1 : parseInt256 (some p1) "key_hash" = Except.ok kh)
    (h2 : parseInt (some p2) "category" = Except.ok c) :
    (commandSend ext "addadnl" [p1, p2] =
        Except.ok (TLRequest.addAdnlId kh c) ↔ 0 ≤ c ∧ c ≤ 15) ∧
    ((c < 0 ∨ 15 < c) →
      commandSend ext "addadnl" [p1, p2] = Except.error CError.categoryRange ∧
      ∀ (oracle : Nat → TLRequest → Except String TLObject) (n : Nat),
        processCommand ext oracle n "addadnl" [p1, p2] =
          (Except.error CError.categoryRange, Trace.empty)) := by
  have hsend : commandSend ext "addadnl" [p1, p2] =
      (if c < 0 ∨ c > 15 then Except.error CError.categoryRange
       else Except.ok (TLRequest.addAdnlId kh c)) := by
    simp only [commandSend, List.getElem?_cons_zero, List.getElem?_cons_succ,
      h1, h2]
    rfl
  constructor
  · rw [hsend]
    by_cases hc : c < 0 ∨ c > 15
    · rw [if_pos hc]
      constructor
      · intro h; cases h
      · intro h; omega
    · rw [if_neg hc]
      constructor
      · intro _; omega
      · intro _; rfl
  · intro hc
    have he : commandSend ext "addadnl" [p1, p2] =
        Except.error CError.categoryRange := by
      rw [hsend, if_pos (by omega)]
    refine ⟨he, fun oracle n => ?_⟩
    unfold processCommand
    rw [he]

/-- C7 witness: category 15 builds the request, 16 and -1 fail before
anything is sent. -/
theorem C7_addadnl_category_witness :
    commandSend exampleExt "addadnl" [hex64z, "15"] =
      Except.ok (TLRequest.addAdnlId (zeros 32) 15) ∧
    commandSend exampleExt "addadnl" [hex64z, "16"] =
      Except.error CError.categoryRange ∧
    processCommand exampleExt deadOracle 0 "addadnl" [hex64z, "-1"] =
      (Except.error CError.categoryRange, Trace.empty) := by
  refine ⟨?_, ?_, ?_⟩
  · exact (C7_addadnl_category exampleExt hex64z "15" (zeros 32) 15
      (by decide) (by decide)).1.mpr (by norm_num)
  · exact ((C7_addadnl_category exampleExt hex64z "16" (zeros 32) 16
      (by decide) (by decide)).2 (by norm_num)).1
  · exact ((C7_addadnl_category exampleExt hex64z "-1" (zeros 32) (-1)
      (by decide) (by decide)).2 (by norm_num)).2 deadOracle 0

/-- C10: every value hash parsing returns is exactly 32 bytes; in particular
an unpadded 44-character base64 string decodes to 33 bytes and is rejected
by the fixed-size conversion even though its length passes the 44/64 check. -/
theorem C10_parse_int256_len32 :
    (∀ (p : Option String) (name : String) (bs : List Nat),
      parseInt256 p name = Except.ok bs → bs.length = 32) ∧
    parseInt256 (some "AAAAAAAAAAAAAAAAAAAAAAAAAAAAAAAAAAAAAAAAAAAA") "hash" =
      Except.error (CError.mustGive "hash in hex or base64 format"
        (CError.sliceTryInto 33)) := by
  constructor
  · intro p name bs h
    unfold parseInt256 parseAny at h
    cases p with
    | none => simp [Except.mapError, Except.map] at h
    | some s =>
      simp only [] at h
      have h' := mapError_eq_ok h
      split at h'
      · split at h'
        · split at h'
          · injection h' with h'
            subst h'
            assumption
          · cases h'
        · cases h'
      · split at h'
        · split at h'
          · split at h'
            · injection h' with h'
              subst h'
              assumption
            · cases h'
          · cases h'
        · cases h'
  · decide

/-- C10 witness: the universal part applied to a concrete successful parse. -/
theorem C10_parse_int256_len32_witness : (zeros 32).length = 32 :=
  C10_parse_int256_len32.1 (some hex64z) "h" (zeros 32) (by decide)

lemma commandSend_unregistered {name : String} (ext : Externals)
    (params : List String) (hmem : name ∉ registeredNames) :
    commandSend ext name params =
      Except.error (CError.commandNotSupported name) := by
  unfold commandSend
  split <;> first
    | rfl
    | exact absurd (by decide) hmem

lemma commandReceive_unregistered {name : String} (ext : Externals)
    (answer : TLObject) (params : List String)
    (hmem : name ∉ registeredNames) :
    commandReceive ext name answer params = Except.error answer := by
  unfold commandReceive
  split <;> first
    | rfl
    | exact absurd (by decide) hmem

lemma commandReceive_mismatch {name : String} {answer : TLObject}
    (ext : Externals) (params : List String)
    (hmem : name ∈ registeredNames)
    (hshape : expectedShape name answer = false) :
    commandReceive ext name answer params = Except.error answer := by
  simp only [registeredNames, List.mem_cons, List.not_mem_nil, or_false]
    at hmem
  rcases hmem with h | h | h | h | h | h | h | h | h | h | h | h | h <;>
    subst h <;> cases answer <;>
    first
      | rfl
      | (simp only [expectedShape] at hshape
         exact Bool.noConfusion hshape)

/-- C6 (amended): an unregistered command name fails with "command not
supported" on the send path, and the session therefore sends nothing; the
receive dispatcher's default arm rejects the answer by returning it
unconsumed — surfaced as the "Wrong response" protocol error, not as a
"command not supported" error — and for every registered command an answer of
the wrong runtime shape always fails with "Wrong response", never silently
returning a result. -/
theorem C6_dispatch_errors :
    (∀ (ext : Externals) (name : String) (params : List String),
      name ∉ registeredNames →
      commandSend ext name params =
        Except.error (CError.commandNotSupported name)) ∧
    (∀ (ext : Externals) (name : String) (answer : TLObject)
      (params : List String), name ∉ registeredNames →
      commandReceive ext name answer params = Except.error answer) ∧
    (∀ (ext : Externals) (oracle : Nat → TLRequest → Except String TLObject)
      (n : Nat) (name : String) (params : List String),
      name ∉ registeredNames →
      processCommand ext oracle n name params =
        (Except.error (CError.commandNotSupported name), Trace.empty)) ∧
    (∀ (ext : Externals) (name : String) (answer : TLObject)
      (params : List String),
      name ∈ registeredNames → expectedShape name answer = false →
      commandReceive ext name answer params = Except.error answer) ∧
    (∀ (ext : Externals) (oracle : Nat → TLRequest → Except String TLObject)
      (n : Nat) (name : String) (params : List String) (query : TLRequest)
      (answer : TLObject),
      name ∈ registeredNames → expectedShape name answer = false →
      commandSend ext name params = Except.ok query →
      oracle n query = Except.ok answer →
      (∀ code msg, answer ≠ TLObject.controlQueryError code msg) →
      processCommand ext oracle n name params =
        (Except.error (CError.wrongResponse query answer), ⟨[query], []⟩)) := by
  refine ⟨fun ext name params hmem => commandSend_unregistered ext params hmem,
    fun ext name answer params hmem =>
      commandReceive_unregistered ext answer params hmem,
    ?_,
    fun ext name answer params hmem hshape =>
      commandReceive_mismatch ext params hmem hshape,
    ?_⟩
  · intro ext oracle n name params hmem
    unfold processCommand
    rw [commandSend_unregistered ext params hmem]
  · intro ext oracle n name params query answer hmem hshape hsend horacle hncqe
    unfold processCommand
    rw [hsend]
    simp only []
    rw [horacle]
    cases answer <;> first
      | exact absurd rfl (hncqe _ _)
      | (simp only []
         rw [commandReceive_mismatch ext params hmem hshape])

/-- C6 counterexample: the claim says the receive path of an unregistered
name fails with a "command not supported" error; in the code the default
receive arm returns the answer itself (its failure type cannot carry a
message at all), which the session reports as "Wrong response" — here shown
at the concrete unregistered name "foo". -/
theorem C6_dispatch_errors_counterexample :
    commandReceive exampleExt "foo" TLObject.success [] =
      Except.error TLObject.success ∧
    processCommand exampleExt deadOracle 0 "foo" [] =
      (Except.error (CError.commandNotSupported "foo"), Trace.empty) :=
  ⟨rfl, rfl⟩

/-- C6 witness: the amended dispatch behaviour at concrete inputs. -/
theorem C6_dispatch_errors_witness :
    commandSend exampleExt "nosuchcmd" [] =
      Except.error (CError.commandNotSupported "nosuchcmd") ∧
    commandReceive exampleExt "newkey" TLObject.success [] =
      Except.error TLObject.success ∧
    processCommand exampleExt (fun _ _ => Except.ok (TLObject.keyHash []))
      0 "addadnl" [hex64z, "0"] =
      (Except.error (CError.wrongResponse (TLRequest.addAdnlId (zeros 32) 0)
        (TLObject.keyHash [])), ⟨[TLRequest.addAdnlId (zeros 32) 0], []⟩) := by
  refine ⟨C6_dispatch_errors.1 exampleExt "nosuchcmd" [] (by decide),
    C6_dispatch_errors.2.2.2.1 exampleExt "newkey" TLObject.success []
      (by decide) (by decide),
    C6_dispatch_errors.2.2.2.2 exampleExt
      (fun _ _ => Except.ok (TLObject.keyHash [])) 0 "addadnl" [hex64z, "0"]
      (TLRequest.addAdnlId (zeros 32) 0) (TLObject.keyHash [])
      (by decide) (by decide) (by decide) rfl
      (fun _ _ h => TLObject.noConfusion h)⟩

lemma walletParse_eval {w_id : Option String} {w : String} {wallet : List Nat}
    (hw : w_id = some w) (htrim : trimQuotes w = w)
    (hpre : startsWithStr w "-1:" = true)
    (hdec : hexDecodeList (w.toList.drop 3) = some wallet) :
    parseAny w_id "wallet_id" (fun value =>
      if ¬ startsWithStr value "-1:" then Except.error CError.useMasterchainWallet
      else match hexDecodeList (value.toList.drop 3) with
        | some w => Except.ok w
        | none => Except.error CError.hexError) = Except.ok wallet := by
  rw [hw]
  simp only [parseAny, htrim, hpre, hdec]
  rfl

lemma walletParse_inv {w_id : Option String} {wallet : List Nat}
    (h : parseAny w_id "wallet_id" (fun value =>
      if ¬ startsWithStr value "-1:" then Except.error CError.useMasterchainWallet
      else match hexDecodeList (value.toList.drop 3) with
        | some w => Except.ok w
        | none => Except.error CError.hexError) = Except.ok wallet) :
    ∃ w, w_id = some w ∧ startsWithStr (trimQuotes w) "-1:" = true ∧
      hexDecodeList ((trimQuotes w).toList.drop 3) = some wallet := by
  unfold parseAny at h
  cases w_id with
  | none => simp [Except.mapError, Except.map] at h
  | some w =>
    simp only [] at h
    have h' := mapError_eq_ok h
    refine ⟨w, rfl, ?_, ?_⟩
    · by_cases hs : startsWithStr (trimQuotes w) "-1:" = true
      · exact hs
      · rw [if_pos (by simpa using hs)] at h'
        cases h'
    · split at h'
      · cases h'
      · split at h'
        · rename_i w' hw'
          injection h' with h''
          subst h''
          exact hw'
        · cases h'

/-- C5: all election-bid preconditions are checked before any remote call —
whenever the orchestrator has sent at least one query, or has produced a
result, the wallet prefix and hex body, the positive election time, the
ordering of the window bounds and the `max_factor` range must all have
held. -/
theorem C5_bid_preconditions (ext : Externals)
    (oracle : Nat → TLRequest → Except String TLObject)
    (cfg : AdnlConsoleConfigJson) (params : List String)
    (h : (processElectionBid ext oracle cfg params).2.sent ≠ [] ∨
      ∃ v, (processElectionBid ext oracle cfg params).1 = Except.ok v) :
    ∃ (w : String) (wallet : List Nat) (elect expire : Int) (mf : ℚ),
      cfg.wallet_id = some w ∧
      startsWithStr (trimQuotes w) "-1:" = true ∧
      hexDecodeList ((trimQuotes w).toList.drop 3) = some wallet ∧
      parseInt params[0]? "elect_time" = Except.ok elect ∧ 0 < elect ∧
      parseInt params[1]? "expire_time" = Except.ok expire ∧ elect < expire ∧
      cfg.max_factor = some mf ∧ 1 ≤ mf ∧ mf ≤ 100 := by
  unfold processElectionBid at h
  split at h
  · simp [Trace.empty] at h
  · rename_i wallet hpw
    obtain ⟨w, hw1, hw2, hw3⟩ := walletParse_inv hpw
    split at h
    · simp [Trace.empty] at h
    · rename_i elect het
      split at h
      · simp [Trace.empty] at h
      · rename_i hel
        split at h
        · simp [Trace.empty] at h
        · rename_i expire hxt
          split at h
          · simp [Trace.empty] at h
          · rename_i hxl
            split at h
            · simp [Trace.empty] at h
            · rename_i mf hmf
              split at h
              · simp [Trace.empty] at h
              · rename_i hmfr
                obtain ⟨hm1, hm2⟩ := not_or.mp hmfr
                exact ⟨w, wallet, elect, expire, mf, hw1, hw2, hw3, het,
                  by omega, hxt, by omega, hmf, by linarith, by linarith⟩

/-- C1: the byte string handed to the remote sign command is exactly the
tag 0x654C5074, elect_time (4 B BE), max_factor (4 B BE), the wallet id and
the ADNL key hash; the returned signature is verified locally against the
step-2 public key over those exact bytes, and a failed verification aborts
the orchestration with no file written. -/
theorem C1_election_bid_sign_verify {ext : Externals}
    {oracle : Nat → TLRequest → Except String TLObject}
    {cfg : AdnlConsoleConfigJson} {params : List String}
    (s : BidScenario ext oracle cfg params) :
    (processElectionBid ext oracle cfg params).2.sent =
      bidSentList ext.nowv s.elect s.expire s.mf s.wallet s.perm s.adnl ∧
    (bidSentList ext.nowv s.elect s.expire s.mf s.wallet s.perm
        s.adnl).getLast? =
      some (TLRequest.sign s.perm (beBytes 4 0x654C5074 ++
        i32BeBytes s.elect ++ beBytes 4 (maxFactorFixed s.mf) ++ s.wallet ++
        s.adnl)) ∧
    (ext.verify s.pub_key (bidSignData s.elect s.mf s.wallet s.adnl) s.sig =
        false →
      processElectionBid ext oracle cfg params =
        (Except.error CError.signatureCheckFailed,
         ⟨bidSentList ext.nowv s.elect s.expire s.mf s.wallet s.perm s.adnl,
          []⟩)) := by
  have h := bid_run s
  refine ⟨?_, rfl, ?_⟩
  · rw [h]
    by_cases hv : ext.verify s.pub_key
        (bidSignData s.elect s.mf s.wallet s.adnl) s.sig = true
    · rw [if_pos hv]
    · rw [if_neg hv]
  · intro hv
    rw [h, if_neg (by simp [hv])]

/-- C1 witness: the scenario fixtures run through the orchestrator; with the
rejecting verifier the run fails with the signature error and writes no
file, and the eight queries — ending in the sign request over the canonical
byte string — were sent. -/
theorem C1_election_bid_sign_verify_witness :
    (processElectionBid exampleExt exampleOracle exampleCfg
        ["100", "200"]).2.sent =
      bidSentList 50 100 200 (mkRat 27 10) (zeros 32) (zeros 32)
        (List.replicate 32 1) ∧
    processElectionBid exampleExt exampleOracle exampleCfg ["100", "200"] =
      (Except.error CError.signatureCheckFailed,
       ⟨bidSentList 50 100 200 (mkRat 27 10) (zeros 32) (zeros 32)
          (List.replicate 32 1), []⟩) := by
  have h := C1_election_bid_sign_verify (exampleScenarioFor exampleExt)
  exact ⟨h.1, h.2.2 rfl⟩

lemma maxFactorFixed_eq_floor (mf : ℚ) :
    maxFactorFixed mf = Int.toNat ⌊mf * 65536⌋ := rfl

set_option maxHeartbeats 2000000 in
/-- C3 (amended): `max_factor` is accepted iff `1.0 ≤ f ≤ 100.0`, and an
accepted value is converted by truncation to `⌊f * 65536⌋` (the Rust
`as u32` cast truncates toward zero), not by nearest-integer rounding. -/
theorem C3_max_factor_conversion :
    (∀ (ext : Externals) (oracle : Nat → TLRequest → Except String TLObject)
      (cfg : AdnlConsoleConfigJson) (params : List String) (w : String)
      (wallet : List Nat) (elect expire : Int) (mf : ℚ),
      cfg.wallet_id = some w → trimQuotes w = w →
      startsWithStr w "-1:" = true →
      hexDecodeList (w.toList.drop 3) = some wallet →
      parseInt params[0]? "elect_time" = Except.ok elect → 0 < elect →
      parseInt params[1]? "expire_time" = Except.ok expire → elect < expire →
      cfg.max_factor = some mf → (mf < 1 ∨ mf > 100) →
      processElectionBid ext oracle cfg params =
        (Except.error CError.maxFactorRange, Trace.empty)) ∧
    (∀ mf : ℚ, maxFactorFixed mf = Int.toNat ⌊mf * 65536⌋) ∧
    (∀ (ext : Externals) (oracle : Nat → TLRequest → Except String TLObject)
      (cfg : AdnlConsoleConfigJson) (params : List String)
      (s : BidScenario ext oracle cfg params),
      (processElectionBid ext oracle cfg params).2.sent.getLast? =
        some (TLRequest.sign s.perm (beBytes 4 0x654C5074 ++
          i32BeBytes s.elect ++ beBytes 4 (Int.toNat ⌊s.mf * 65536⌋) ++
          s.wallet ++ s.adnl))) := by
  refine ⟨?_, maxFactorFixed_eq_floor, ?_⟩
  · intro ext oracle cfg params w wallet elect expire mf hw htrim hpre hdec
      het het0 hxt hxt0 hmf hout
    unfold processElectionBid
    rw [walletParse_eval hw htrim hpre hdec]
    simp only []
    rw [het]
    simp only []
    rw [if_neg (by omega)]
    rw [hxt]
    simp only []
    rw [if_neg (by omega)]
    rw [hmf]
    simp only []
    rw [if_pos hout]
  · intro ext oracle cfg params s
    have h := bid_run s
    have h2 := maxFactorFixed_eq_floor s.mf
    rw [h]
    by_cases hv : ext.verify s.pub_key
        (bidSignData s.elect s.mf s.wallet s.adnl) s.sig = true
    · rw [if_pos hv]
      show (bidSentList ext.nowv s.elect s.expire s.mf s.wallet s.perm
        s.adnl).getLast? = _
      rw [show (bidSentList ext.nowv s.elect s.expire s.mf s.wallet s.perm
          s.adnl).getLast? = some (TLRequest.sign s.perm
          (bidSignData s.elect s.mf s.wallet s.adnl)) from rfl]
      unfold bidSignData
      rw [h2]
    · rw [if_neg hv]
      show (bidSentList ext.nowv s.elect s.expire s.mf s.wallet s.perm
        s.adnl).getLast? = _
      rw [show (bidSentList ext.nowv s.elect s.expire s.mf s.wallet s.perm
          s.adnl).getLast? = some (TLRequest.sign s.perm
          (bidSignData s.elect s.mf s.wallet s.adnl)) from rfl]
      unfold bidSignData
      rw [h2]

/-- C3 counterexample: the claim specifies nearest-integer rounding; at
`max_factor` `1 + 3/2^18` — an exactly representable binary32 value inside
`[1, 100]` — the code truncates `65536.75` to `65536` while
`round(f * 65536)` is `65537`. -/
theorem C3_max_factor_conversion_counterexample :
    isF32 (mkRat 262147 262144) ∧ 1 ≤ mkRat 262147 262144 ∧
    mkRat 262147 262144 ≤ (100 : ℚ) ∧
    maxFactorFixed (mkRat 262147 262144) = 65536 ∧
    round ((mkRat 262147 262144 : ℚ) * 65536) = 65537 ∧
    (65536 : Nat) ≠ 65537 := by
  refine ⟨⟨262147, 18, by norm_num, Or.inl ⟨by norm_num, ?_⟩⟩, ?_, ?_, ?_,
    ?_, by norm_num⟩
  · rw [Rat.mkRat_eq_div]
    norm_num
  · rw [Rat.mkRat_eq_div]
    norm_num
  · rw [Rat.mkRat_eq_div]
    norm_num
  · rw [maxFactorFixed_eq_floor, Rat.mkRat_eq_div]
    norm_num
    rfl
  · rw [Rat.mkRat_eq_div, round_eq]
    norm_num

/-- C3 witness: the rejection of an out-of-range value, the truncation
identity, and the accepted value reaching the signed bytes. -/
theorem C3_max_factor_conversion_witness :
    processElectionBid exampleExt deadOracle
      ⟨some ("-1:" ++ hex64z), some (mkRat 200 1)⟩ ["100", "200"] =
      (Except.error CError.maxFactorRange, Trace.empty) ∧
    maxFactorFixed (mkRat 27 10) = Int.toNat ⌊(mkRat 27 10 : ℚ) * 65536⌋ ∧
    (processElectionBid exampleExt exampleOracle exampleCfg
        ["100", "200"]).2.sent.getLast? =
      some (TLRequest.sign (zeros 32) (beBytes 4 0x654C5074 ++
        i32BeBytes 100 ++
        beBytes 4 (Int.toNat ⌊(mkRat 27 10 : ℚ) * 65536⌋) ++ zeros 32 ++
        List.replicate 32 1)) := by
  refine ⟨?_, C3_max_factor_conversion.2.1 (mkRat 27 10), ?_⟩
  · exact C3_max_factor_conversion.1 exampleExt deadOracle
      ⟨some ("-1:" ++ hex64z), some (mkRat 200 1)⟩ ["100", "200"]
      ("-1:" ++ hex64z) (zeros 32) 100 200 (mkRat 200 1) rfl (by decide)
      (by decide) (by decide) (by decide) (by decide) (by decide) (by decide)
      rfl (Or.inr (by rw [Rat.mkRat_eq_div]; norm_num))
  · exact C3_max_factor_conversion.2.2 exampleExt exampleOracle exampleCfg
      ["100", "200"] (exampleScenarioFor exampleExt)

/-- C8: the submission payload is exactly the tag 0x4E73744B, the 8-byte
query id equal to the wall clock in seconds, the 32-byte public key,
elect_time (4 B BE), max_factor (4 B BE) and the ADNL key hash, with the
64-byte signature attached as a referenced sub-cell of the root cell rather
than inline in the data bits. -/
theorem C8_submission_payload {ext : Externals}
    {oracle : Nat → TLRequest → Except String TLObject}
    {cfg : AdnlConsoleConfigJson} {params : List String}
    (s : BidScenario ext oracle cfg params)
    (hv : ext.verify s.pub_key (bidSignData s.elect s.mf s.wallet s.adnl)
      s.sig = true) :
    processElectionBid ext oracle cfg params =
      (Except.ok ("Message body is " ++ base64Encode (ext.serializeToc
          (bidBody ext.nowv s.elect s.mf s.pub_key s.adnl s.sig)) ++
          " saved to path " ++ ((params[2]?).getD "validator-query.boc"),
        ext.serializeToc (bidBody ext.nowv s.elect s.mf s.pub_key s.adnl
          s.sig)),
       ⟨bidSentList ext.nowv s.elect s.expire s.mf s.wallet s.perm s.adnl,
        [((params[2]?).getD "validator-query.boc",
          ext.serializeToc (bidBody ext.nowv s.elect s.mf s.pub_key s.adnl
            s.sig))]⟩) ∧
    (bidBody ext.nowv s.elect s.mf s.pub_key s.adnl s.sig).data =
      beBytes 4 0x4E73744B ++ beBytes 8 (i32AsU64 ext.nowv) ++ s.pub_key ++
        i32BeBytes s.elect ++ beBytes 4 (maxFactorFixed s.mf) ++ s.adnl ∧
    (bidBody ext.nowv s.elect s.mf s.pub_key s.adnl s.sig).refs =
      [⟨s.sig, 512⟩] := by
  refine ⟨?_, rfl, rfl⟩
  rw [bid_run s, if_pos hv]

/-- C8 witness: the payload produced by the concrete scenario with the
accepting verifier. -/
theorem C8_submission_payload_witness :
    processElectionBid exampleExtOk exampleOracle exampleCfg ["100", "200"] =
      (Except.ok ("Message body is " ++ base64Encode
          (exampleExtOk.serializeToc (bidBody 50 100 (mkRat 27 10) (zeros 32)
            (List.replicate 32 1) (zeros 64))) ++ " saved to path " ++
          "validator-query.boc",
        exampleExtOk.serializeToc (bidBody 50 100 (mkRat 27 10) (zeros 32)
          (List.replicate 32 1) (zeros 64))),
       ⟨bidSentList 50 100 200 (mkRat 27 10) (zeros 32) (zeros 32)
          (List.replicate 32 1),
        [("validator-query.boc", exampleExtOk.serializeToc (bidBody 50 100
          (mkRat 27 10) (zeros 32) (List.replicate 32 1) (zeros 64)))]⟩) :=
  (C8_submission_payload (exampleScenarioFor exampleExtOk) rfl).1

/-- C9: config-param extraction fails with the "can not find" error when the
index is absent from the sparse map, with the structure error when the
McStateExtra sub-tree is absent, with the "no reference" format error when
the entry has no first referenced sub-cell — and writes no file in any of
these cases; on success it serializes exactly the first referenced sub-cell
and writes it to the output path (default `config-param.boc`). -/
theorem C9_config_param_extraction {C J : Type}
    (jsonParse : String → Except String J)
    (parseState : J → Except String (ZeroState C))
    (tocSer : C → Except String (List Nat))
    (fsReadStr : String → Option String) (params : List String)
    (index : Int) (zpath contents : String) (j : J) (zs : ZeroState C)
    (hidx : parseInt params[0]? "index" = Except.ok index)
    (h0 : ¬ index < 0)
    (hzp : parseAny params[1]? "zerostate.json"
      (fun value => Except.ok value) = Except.ok zpath)
    (hfs : fsReadStr zpath = some contents)
    (hjson : jsonParse contents = Except.ok j)
    (hstate : parseState j = Except.ok zs) :
    (zs.readCustom = Except.ok none →
      processConfigParam jsonParse parseState tocSer fsReadStr params =
        (Except.error CError.mcStateExtraMissing, [])) ∧
    (∀ extra : McStateExtra C, zs.readCustom = Except.ok (some extra) →
      (extra.configParams index = Except.ok none →
        processConfigParam jsonParse parseState tocSer fsReadStr params =
          (Except.error (CError.configParamMissing index), [])) ∧
      (extra.configParams index = Except.ok (some []) →
        processConfigParam jsonParse parseState tocSer fsReadStr params =
          (Except.error (CError.configParamNoReference index), [])) ∧
      (∀ (cell : C) (rest : List C) (bytes : List Nat),
        extra.configParams index = Except.ok (some (cell :: rest)) →
        tocSer cell = Except.ok bytes →
        processConfigParam jsonParse parseState tocSer fsReadStr params =
          (Except.ok ("Config param " ++ intToDecString index ++
              " saved to path " ++ ((params[2]?).getD "config-param.boc"),
            bytes),
           [((params[2]?).getD "config-param.boc", bytes)]))) := by
  constructor
  · intro hrc
    unfold processConfigParam
    rw [hidx]
    simp only []
    rw [if_neg h0, hzp]
    simp only []
    rw [hfs]
    simp only []
    rw [hjson]
    simp only []
    rw [hstate]
    simp only []
    rw [hrc]
  · intro extra hrc
    refine ⟨?_, ?_, ?_⟩
    · intro hcp
      unfold processConfigParam
      rw [hidx]
      simp only []
      rw [if_neg h0, hzp]
      simp only []
      rw [hfs]
      simp only []
      rw [hjson]
      simp only []
      rw [hstate]
      simp only []
      rw [hrc]
      simp only []
      rw [hcp]
    · intro hcp
      unfold processConfigParam
      rw [hidx]
      simp only []
      rw [if_neg h0, hzp]
      simp only []
      rw [hfs]
      simp only []
      rw [hjson]
      simp only []
      rw [hstate]
      simp only []
      rw [hrc]
      simp only []
      rw [hcp]
      rfl
    · intro cell rest bytes hcp htoc
      unfold processConfigParam
      rw [hidx]
      simp only []
      rw [if_neg h0, hzp]
      simp only []
      rw [hfs]
      simp only []
      rw [hjson]
      simp only []
      rw [hstate]
      simp only []
      rw [hrc]
      simp only []
      rw [hcp]
      simp only [List.head?]
      rw [htoc]

/-- C9 witness: a concrete sparse map holding index 23 with one referenced
sub-cell — extraction of 23 serializes that sub-cell and writes it to the
default path; extraction of the absent index 24 is the "can not find"
error with no write. -/
theorem C9_config_param_extraction_witness :
    processConfigParam (fun s => Except.ok s)
      (fun _ => Except.ok (⟨Except.ok (some ⟨fun i =>
        if i = 23 then Except.ok (some [7]) else Except.ok none⟩)⟩ :
        ZeroState Nat))
      (fun n => Except.ok [n]) (fun _ => some "zs")
      ["23", "zerostate.json"] =
      (Except.ok ("Config param " ++ intToDecString 23 ++
          " saved to path " ++ "config-param.boc", [7]),
       [("config-param.boc", [7])]) ∧
    processConfigParam (fun s => Except.ok s)
      (fun _ => Except.ok (⟨Except.ok (some ⟨fun i =>
        if i = 23 then Except.ok (some [7]) else Except.ok none⟩)⟩ :
        ZeroState Nat))
      (fun n => Except.ok [n]) (fun _ => some "zs")
      ["24", "zerostate.json"] =
      (Except.error (CError.configParamMissing 24), []) := by
  constructor
  · exact ((C9_config_param_extraction (fun s => Except.ok s)
      (fun _ => Except.ok (⟨Except.ok (some ⟨fun i =>
        if i = 23 then Except.ok (some [7]) else Except.ok none⟩)⟩ :
        ZeroState Nat))
      (fun n => Except.ok [n]) (fun _ => some "zs") ["23", "zerostate.json"]
      23 "zerostate.json" "zs" "zs"
      ⟨Except.ok (some ⟨fun i =>
        if i = 23 then Except.ok (some [7]) else Except.ok none⟩)⟩
      (by decide) (by decide) (by decide) rfl rfl rfl).2
      ⟨fun i => if i = 23 then Except.ok (some [7]) else Except.ok none⟩
      rfl).2.2 7 [] [7] (by decide) rfl
  · exact ((C9_config_param_extraction (fun s => Except.ok s)
      (fun _ => Except.ok (⟨Except.ok (some ⟨fun i =>
        if i = 23 then Except.ok (some [7]) else Except.ok none⟩)⟩ :
        ZeroState Nat))
      (fun n => Except.ok [n]) (fun _ => some "zs") ["24", "zerostate.json"]
      24 "zerostate.json" "zs" "zs"
      ⟨Except.ok (some ⟨fun i =>
        if i = 23 then Except.ok (some [7]) else Except.ok none⟩)⟩
      (by decide) (by decide) (by decide) rfl rfl rfl).2
      ⟨fun i => if i = 23 then Except.ok (some [7]) else Except.ok none⟩
      rfl).1 (by decide)

/-- C5 witness: with valid preconditions and a dead transport, the first
query is still sent, so the hypothesis holds and all preconditions are
recovered. -/
theorem C5_bid_preconditions_witness :
    ∃ (w : String) (wallet : List Nat) (elect expire : Int) (mf : ℚ),
      exampleCfg.wallet_id = some w ∧
      startsWithStr (trimQuotes w) "-1:" = true ∧
      hexDecodeList ((trimQuotes w).toList.drop 3) = some wallet ∧
      parseInt (["100", "200"] : List String)[0]? "elect_time" =
        Except.ok elect ∧ 0 < elect ∧
      parseInt (["100", "200"] : List String)[1]? "expire_time" =
        Except.ok expire ∧ elect < expire ∧
      exampleCfg.max_factor = some mf ∧ 1 ≤ mf ∧ mf ≤ 100 :=
  C5_bid_preconditions exampleExt deadOracle exampleCfg ["100", "200"]
    (Or.inl (by decide))

end Console
